import Mathlib

/-!
Shallow embedding of the `lax` scanner (files `src/main.rs` and `src/scanner.rs`).

The source buffer is a `List Nat` of byte values.  Token spans are recorded as
`(spanStart, spanStop)` offsets into that buffer, mirroring the Rust slice
`&source[start..current]`; the end-of-input token's empty slice (`&[]` in the
source) is modelled as the empty span `(current, current)`.

The diagnostic session (`Lax` in `main.rs`) is embedded as the `hadError` flag
together with the list `reports` of `(line, message)` pairs sent to the
installed `Reporter` sink; `laxError` mirrors `Lax::error` (report, then set
the flag).

Rust's `Scanner::advance` indexes `self.source[position]` and would panic on an
out-of-bounds index; the ghost field `oob` records whether any such
out-of-bounds read ever happened, so "the scanner never reads past the buffer's
end" becomes the statement that `oob` stays `false`.

Each `while` loop of the source is embedded as a structurally recursive
function on a fuel argument; callers pass `source.length + 1`, which is proved
sufficient (every iteration consumes at least one byte).
-/

namespace Lax

/-- Lexical categories (`TokenType` in `scanner.rs`).  `str` carries the string
literal's raw content bytes (the Rust variant `String(&[u8])`), `num` carries
the decoded numeric value (the Rust variant `Number(f64)`, modelled as the
exact decimal rational). -/
inductive TokenType where
  | leftParen
  | rightParen
  | leftBrace
  | rightBrace
  | comma
  | dot
  | minus
  | plus
  | semicolon
  | slash
  | star
  | bang
  | bangEqual
  | equal
  | equalEqual
  | greater
  | greaterEqual
  | less
  | lessEqual
  | identifier
  | str (content : List Nat)
  | num (value : Rat)
  | kAnd
  | kClass
  | kElse
  | kFalse
  | kFun
  | kFor
  | kIf
  | kNil
  | kOr
  | kPrint
  | kReturn
  | kSuper
  | kThis
  | kTrue
  | kVar
  | kWhile
  | EOF
deriving DecidableEq

/-- A produced token (`Token` in `scanner.rs`): category, lexeme span
`[spanStart, spanStop)` into the source buffer, and 0-based line number. -/
structure Token where
  tokenType : TokenType
  spanStart : Nat
  spanStop : Nat
  line : Nat
deriving DecidableEq

/-- Combined scanner and diagnostic-session state: the fields of
`Scanner` (`source`, `start`, `current`, `line`, `tokens`) together with the
embedded `Lax` session (`hadError`, `reports`) and the ghost out-of-bounds
flag `oob`. -/
structure ScanState where
  source : List Nat
  start : Nat
  current : Nat
  line : Nat
  tokens : List Token
  hadError : Bool
  reports : List (Nat × String)
  oob : Bool
deriving DecidableEq

/-- `Lax::error`: forward `(line, message)` to the reporter sink and set the
sticky `had_error` flag. -/
def laxError (s : ScanState) (line : Nat) (msg : String) : ScanState :=
  { s with reports := s.reports ++ [(line, msg)], hadError := true }

/-- `Scanner::is_at_end`. -/
def isAtEnd (s : ScanState) : Bool :=
  s.source.length ≤ s.current

/-- `Scanner::peek`: the byte at `current`, or the sentinel 0 at end of
input. -/
def peek (s : ScanState) : Nat :=
  if isAtEnd s then 0 else s.source.getD s.current 0

/-- `Scanner::peek_next`: the byte at `current + 1`, or the sentinel 0. -/
def peekNext (s : ScanState) : Nat :=
  if s.source.length ≤ s.current + 1 then 0 else s.source.getD (s.current + 1) 0

/-- `Scanner::advance`: return the byte at `current` and move the cursor one
byte forward.  The Rust code indexes `self.source[position]`, which panics when
`position` is out of bounds; the ghost flag `oob` records that situation. -/
def advance (s : ScanState) : Nat × ScanState :=
  (s.source.getD s.current 0,
    { s with
        current := s.current + 1,
        oob := s.oob || decide (s.source.length ≤ s.current) })

/-- `Scanner::check_next`: consume the next byte iff it equals `expected`. -/
def checkNext (s : ScanState) (expected : Nat) : Bool × ScanState :=
  if isAtEnd s || peek s != expected then
    (false, s)
  else
    (true, { s with current := s.current + 1 })

/-- `Scanner::add_token`: push a token whose lexeme is
`source[start..current]` at the current line. -/
def addToken (s : ScanState) (tt : TokenType) : ScanState :=
  { s with
      tokens := s.tokens ++
        [{ tokenType := tt, spanStart := s.start, spanStop := s.current,
           line := s.line }] }

/-- The slice `source[a..b]` as a byte list. -/
def sliceBytes (src : List Nat) (a b : Nat) : List Nat :=
  (src.drop a).take (b - a)

/-- ASCII digit test (the `is_digit` closure in the number case). -/
def isDigit (c : Nat) : Bool :=
  48 ≤ c && c ≤ 57

/-- ASCII letter-or-underscore test (the `b'a'..=b'z' | b'A'..=b'Z' | b'_'`
pattern guarding the identifier case). -/
def isAlphaByte (c : Nat) : Bool :=
  (97 ≤ c && c ≤ 122) || (65 ≤ c && c ≤ 90) || c = 95

/-- The `is_alpha_numeric` closure in the identifier case. -/
def isAlphaNumericByte (c : Nat) : Bool :=
  isAlphaByte c || isDigit c

/-- The comment loop `while self.peek() != b'\n' && !self.is_at_end()`. -/
def commentLoop : Nat → ScanState → ScanState
  | 0, s => s
  | fuel + 1, s =>
    if peek s != 10 && !isAtEnd s then
      commentLoop fuel (advance s).2
    else s

/-- The string-body loop `while self.peek() != b'"' && !self.is_at_end()`,
incrementing the line counter on each embedded newline. -/
def stringLoop : Nat → ScanState → ScanState
  | 0, s => s
  | fuel + 1, s =>
    if peek s != 34 && !isAtEnd s then
      stringLoop fuel
        (advance (if peek s = 10 then { s with line := s.line + 1 } else s)).2
    else s

/-- The digit-run loop `while is_digit(self.peek())`. -/
def digitLoop : Nat → ScanState → ScanState
  | 0, s => s
  | fuel + 1, s =>
    if isDigit (peek s) then digitLoop fuel (advance s).2 else s

/-- The identifier-run loop `while is_alpha_numeric(self.peek())`. -/
def identLoop : Nat → ScanState → ScanState
  | 0, s => s
  | fuel + 1, s =>
    if isAlphaNumericByte (peek s) then identLoop fuel (advance s).2 else s

/-- The value of a big-endian list of ASCII digit bytes. -/
def digitsVal (ds : List Nat) : Nat :=
  ds.foldl (fun a d => a * 10 + (d - 48)) 0

/-- Modelled from the spec: the external numeric decoder (`fast_float::parse`,
a third-party crate whose code is not in this repository) — "Decode the
accumulated span as a double-precision value; on successful decode emit a
number token with that value; on decode failure, report a malformed-number
error".  It accepts a non-empty ASCII digit run optionally followed by `.` and
a further non-empty digit run, and yields the exact decimal value as a
rational (double-precision rounding is not modelled); any other byte string is
a decode failure. -/
def fastFloatParse (bs : List Nat) : Option Rat :=
  let ip := bs.takeWhile isDigit
  match bs.dropWhile isDigit with
  | [] => if ip.isEmpty then none else some (mkRat (digitsVal ip) 1)
  | 46 :: frac =>
    if ip.isEmpty || frac.isEmpty || !(frac.all isDigit) then none
    else
      some (mkRat (digitsVal ip * 10 ^ frac.length + digitsVal frac)
        (10 ^ frac.length))
  | _ => none

/-- The keyword table of the identifier case: exact match of the lexeme bytes
against the 16 reserved words, anything else is a generic identifier. -/
def keywordOrIdentifier (bs : List Nat) : TokenType :=
  if bs = [97, 110, 100] then .kAnd                      -- "and"
  else if bs = [99, 108, 97, 115, 115] then .kClass      -- "class"
  else if bs = [101, 108, 115, 101] then .kElse          -- "else"
  else if bs = [102, 97, 108, 115, 101] then .kFalse     -- "false"
  else if bs = [102, 117, 110] then .kFun                -- "fun"
  else if bs = [102, 111, 114] then .kFor                -- "for"
  else if bs = [105, 102] then .kIf                      -- "if"
  else if bs = [110, 105, 108] then .kNil                -- "nil"
  else if bs = [111, 114] then .kOr                      -- "or"
  else if bs = [112, 114, 105, 110, 116] then .kPrint    -- "print"
  else if bs = [114, 101, 116, 117, 114, 110] then .kReturn  -- "return"
  else if bs = [115, 117, 112, 101, 114] then .kSuper    -- "super"
  else if bs = [116, 104, 105, 115] then .kThis          -- "this"
  else if bs = [116, 114, 117, 101] then .kTrue          -- "true"
  else if bs = [118, 97, 114] then .kVar                 -- "var"
  else if bs = [119, 104, 105, 108, 101] then .kWhile    -- "while"
  else .identifier

/-- One iteration of the outer `'next_token` loop of `Scanner::scan_tokens`:
record the span start, consume one byte, and classify.  The returned `Bool` is
`true` exactly when the iteration executed the `break` of the
unterminated-string branch. -/
def scanStep (s0 : ScanState) : ScanState × Bool :=
  let s1 : ScanState := { s0 with start := s0.current }
  let c := (advance s1).1
  let s := (advance s1).2
  if c = 40 then (addToken s .leftParen, false)
  else if c = 41 then (addToken s .rightParen, false)
  else if c = 123 then (addToken s .leftBrace, false)
  else if c = 125 then (addToken s .rightBrace, false)
  else if c = 44 then (addToken s .comma, false)
  else if c = 46 then (addToken s .dot, false)
  else if c = 45 then (addToken s .minus, false)
  else if c = 43 then (addToken s .plus, false)
  else if c = 59 then (addToken s .semicolon, false)
  else if c = 42 then (addToken s .star, false)
  else if c = 33 then
    let m := (checkNext s 61).1
    let s := (checkNext s 61).2
    (addToken s (if m then .bangEqual else .bang), false)
  else if c = 61 then
    let m := (checkNext s 61).1
    let s := (checkNext s 61).2
    (addToken s (if m then .equalEqual else .equal), false)
  else if c = 60 then
    let m := (checkNext s 61).1
    let s := (checkNext s 61).2
    (addToken s (if m then .lessEqual else .less), false)
  else if c = 62 then
    let m := (checkNext s 61).1
    let s := (checkNext s 61).2
    (addToken s (if m then .greaterEqual else .greater), false)
  else if c = 47 then
    let m := (checkNext s 47).1
    let s := (checkNext s 47).2
    if m then (commentLoop (s.source.length + 1) s, false)
    else (addToken s .slash, false)
  else if c = 32 || c = 13 || c = 9 then (s, false)
  else if c = 10 then ({ s with line := s.line + 1 }, false)
  else if c = 34 then
    let s := stringLoop (s.source.length + 1) s
    if isAtEnd s then (laxError s s.line "unterminated string", true)
    else
      let s := (advance s).2
      (addToken s (.str (sliceBytes s.source (s.start + 1) (s.current - 1))),
        false)
  else if isDigit c then
    let s := digitLoop (s.source.length + 1) s
    let s :=
      if peek s = 46 && isDigit (peekNext s) then
        digitLoop (s.source.length + 1) (advance s).2
      else s
    match fastFloatParse (sliceBytes s.source s.start s.current) with
    | some v => (addToken s (.num v), false)
    | none => (laxError s s.line "could not parse number", false)
  else if isAlphaByte c then
    let s := identLoop (s.source.length + 1) s
    (addToken s (keywordOrIdentifier (sliceBytes s.source s.start s.current)),
      false)
  else (laxError s s.line "unexpected character", false)

/-- The outer `'next_token: while !self.is_at_end()` loop; a `true` break flag
from `scanStep` ends the loop early (the unterminated-string `break`). -/
def scanLoopF : Nat → ScanState → ScanState
  | 0, s => s
  | fuel + 1, s =>
    if isAtEnd s then s
    else
      let r := scanStep s
      if r.2 then r.1 else scanLoopF fuel r.1

/-- `Scanner::scan_tokens`: clear the accumulator, run the scan loop to
completion, append the end-of-input token (empty lexeme, current line), and
return the accumulated sequence together with the final state. -/
def scanTokens (s : ScanState) : List Token × ScanState :=
  let s : ScanState := { s with tokens := [] }
  let s := scanLoopF (s.source.length + 1) s
  let s : ScanState :=
    { s with
        tokens := s.tokens ++
          [{ tokenType := .EOF, spanStart := s.current, spanStop := s.current,
             line := s.line }] }
  (s.tokens, s)

/-- `Scanner::new` over a fresh `Lax` diagnostic session (`Lax::new` starts
with `had_error = false`). -/
def initScanner (src : List Nat) : ScanState :=
  { source := src, start := 0, current := 0, line := 0, tokens := [],
    hadError := false, reports := [], oob := false }

/-- The 0-based line number of byte offset `p`: the number of newline bytes
strictly before `p`. -/
def lineAt (src : List Nat) (p : Nat) : Nat :=
  (src.take p).count 10

/-! Basic facts about the primitive cursor operations. -/

theorem isAtEnd_eq_false_iff (s : ScanState) :
    isAtEnd s = false ↔ s.current < s.source.length := by
  simp [isAtEnd]

theorem peek_of_lt (s : ScanState) (h : s.current < s.source.length) :
    peek s = s.source.getD s.current 0 := by
  simp [peek, isAtEnd, Nat.not_le.2 h]

theorem peek_sentinel (s : ScanState) (h : isAtEnd s = true) : peek s = 0 := by
  simp [peek, h]

theorem peekNext_sentinel (s : ScanState)
    (h : s.source.length ≤ s.current + 1) : peekNext s = 0 := by
  simp [peekNext, h]

theorem peekNext_of_lt (s : ScanState) (h : s.current + 1 < s.source.length) :
    peekNext s = s.source.getD (s.current + 1) 0 := by
  simp [peekNext, Nat.not_le.2 h]

theorem isDigit_zero : isDigit 0 = false := rfl

theorem isAlphaNumericByte_zero : isAlphaNumericByte 0 = false := rfl

theorem isDigit_peek_lt (s : ScanState) (h : isDigit (peek s) = true) :
    s.current < s.source.length := by
  by_contra hc
  rw [peek_sentinel s (by simp [isAtEnd]; omega)] at h
  simp [isDigit] at h

theorem isAlphaNumericByte_peek_lt (s : ScanState)
    (h : isAlphaNumericByte (peek s) = true) :
    s.current < s.source.length := by
  by_contra hc
  rw [peek_sentinel s (by simp [isAtEnd]; omega)] at h
  simp [isAlphaNumericByte, isAlphaByte, isDigit] at h

@[simp] theorem advance_fst (s : ScanState) :
    (advance s).1 = s.source.getD s.current 0 := rfl

@[simp] theorem advance_source (s : ScanState) :
    (advance s).2.source = s.source := rfl

@[simp] theorem advance_start (s : ScanState) :
    (advance s).2.start = s.start := rfl

@[simp] theorem advance_current (s : ScanState) :
    (advance s).2.current = s.current + 1 := rfl

@[simp] theorem advance_line (s : ScanState) :
    (advance s).2.line = s.line := rfl

@[simp] theorem advance_tokens (s : ScanState) :
    (advance s).2.tokens = s.tokens := rfl

@[simp] theorem advance_hadError (s : ScanState) :
    (advance s).2.hadError = s.hadError := rfl

@[simp] theorem advance_reports (s : ScanState) :
    (advance s).2.reports = s.reports := rfl

theorem advance_oob (s : ScanState) (h : s.current < s.source.length) :
    (advance s).2.oob = s.oob := by
  simp [advance, Nat.not_le.2 h]

theorem isAtEnd_eq_true_iff (s : ScanState) :
    isAtEnd s = true ↔ s.source.length ≤ s.current := by
  simp [isAtEnd]

theorem checkNext_eq (s : ScanState) (e : Nat) :
    checkNext s e =
      if s.current < s.source.length ∧ s.source.getD s.current 0 = e then
        (true, { s with current := s.current + 1 })
      else (false, s) := by
  rcases Nat.lt_or_ge s.current s.source.length with h | h
  · have h1 : isAtEnd s = false := (isAtEnd_eq_false_iff s).2 h
    by_cases he : s.source.getD s.current 0 = e
    · have hcond : (isAtEnd s || (peek s != e)) = false := by
        rw [h1, peek_of_lt s h, he]
        simp
      unfold checkNext
      rw [hcond, if_neg Bool.false_ne_true, if_pos ⟨h, he⟩]
    · have hcond : (isAtEnd s || (peek s != e)) = true := by
        rw [h1, peek_of_lt s h, Bool.false_or]
        exact bne_iff_ne.2 he
      unfold checkNext
      rw [hcond, if_pos rfl, if_neg (fun hc => he hc.2)]
  · have h1 : isAtEnd s = true := (isAtEnd_eq_true_iff s).2 h
    have hcond : (isAtEnd s || (peek s != e)) = true := by
      rw [h1]
      simp
    unfold checkNext
    rw [hcond, if_pos rfl, if_neg (fun hc => absurd hc.1 (Nat.not_lt.2 h))]

@[simp] theorem addToken_source (s : ScanState) (tt : TokenType) :
    (addToken s tt).source = s.source := rfl

@[simp] theorem addToken_start (s : ScanState) (tt : TokenType) :
    (addToken s tt).start = s.start := rfl

@[simp] theorem addToken_current (s : ScanState) (tt : TokenType) :
    (addToken s tt).current = s.current := rfl

@[simp] theorem addToken_line (s : ScanState) (tt : TokenType) :
    (addToken s tt).line = s.line := rfl

@[simp] theorem addToken_tokens (s : ScanState) (tt : TokenType) :
    (addToken s tt).tokens = s.tokens ++
      [{ tokenType := tt, spanStart := s.start, spanStop := s.current,
         line := s.line }] := rfl

@[simp] theorem addToken_hadError (s : ScanState) (tt : TokenType) :
    (addToken s tt).hadError = s.hadError := rfl

@[simp] theorem addToken_reports (s : ScanState) (tt : TokenType) :
    (addToken s tt).reports = s.reports := rfl

@[simp] theorem addToken_oob (s : ScanState) (tt : TokenType) :
    (addToken s tt).oob = s.oob := rfl

@[simp] theorem laxError_source (s : ScanState) (n : Nat) (m : String) :
    (laxError s n m).source = s.source := rfl

@[simp] theorem laxError_start (s : ScanState) (n : Nat) (m : String) :
    (laxError s n m).start = s.start := rfl

@[simp] theorem laxError_current (s : ScanState) (n : Nat) (m : String) :
    (laxError s n m).current = s.current := rfl

@[simp] theorem laxError_line (s : ScanState) (n : Nat) (m : String) :
    (laxError s n m).line = s.line := rfl

@[simp] theorem laxError_tokens (s : ScanState) (n : Nat) (m : String) :
    (laxError s n m).tokens = s.tokens := rfl

@[simp] theorem laxError_hadError (s : ScanState) (n : Nat) (m : String) :
    (laxError s n m).hadError = true := rfl

@[simp] theorem laxError_reports (s : ScanState) (n : Nat) (m : String) :
    (laxError s n m).reports = s.reports ++ [(n, m)] := rfl

@[simp] theorem laxError_oob (s : ScanState) (n : Nat) (m : String) :
    (laxError s n m).oob = s.oob := rfl

/-! Facts about `lineAt`. -/

theorem lineAt_zero (src : List Nat) : lineAt src 0 = 0 := rfl

theorem lineAt_succ (src : List Nat) (p : Nat) (h : p < src.length) :
    lineAt src (p + 1) =
      lineAt src p + (if src.getD p 0 = 10 then 1 else 0) := by
  unfold lineAt
  rw [List.take_succ, List.getElem?_eq_getElem h, List.count_append,
    List.getD_eq_getElem src 0 h]
  simp [List.count_singleton']

theorem lineAt_succ_ne (src : List Nat) (p : Nat) (h : p < src.length)
    (hb : src.getD p 0 ≠ 10) : lineAt src (p + 1) = lineAt src p := by
  rw [lineAt_succ src p h, if_neg hb, Nat.add_zero]

theorem lineAt_succ_nl (src : List Nat) (p : Nat) (h : p < src.length)
    (hb : src.getD p 0 = 10) : lineAt src (p + 1) = lineAt src p + 1 := by
  rw [lineAt_succ src p h, if_pos hb]

/-! Facts about `sliceBytes`. -/

theorem sliceBytes_append (src : List Nat) (a b c : Nat) (h1 : a ≤ b)
    (h2 : b ≤ c) :
    sliceBytes src a c = sliceBytes src a b ++ sliceBytes src b c := by
  unfold sliceBytes
  have hc : c - a = (b - a) + (c - b) := by omega
  rw [hc, List.take_add, List.drop_drop]
  have hb : a + (b - a) = b := by omega
  rw [hb]

theorem sliceBytes_single (src : List Nat) (b : Nat) (h : b < src.length) :
    sliceBytes src b (b + 1) = [src.getD b 0] := by
  unfold sliceBytes
  have h1 : b + 1 - b = 1 := by omega
  rw [h1, List.getD_eq_getElem src 0 h, List.drop_eq_getElem_cons h]
  rfl

theorem mem_sliceBytes (src : List Nat) (x a b : Nat)
    (h : x ∈ sliceBytes src a b) :
    ∃ i, a ≤ i ∧ i < b ∧ i < src.length ∧ x = src.getD i 0 := by
  unfold sliceBytes at h
  rw [List.mem_iff_getElem] at h
  obtain ⟨j, hj, hx⟩ := h
  have hj1 : j < b - a := hj.trans_le (List.length_take_le _ _)
  have hj2 : j < (src.drop a).length := by
    have := List.length_take (b - a) (src.drop a)
    omega
  have hj3 : a + j < src.length := by
    have := List.length_drop a src
    omega
  refine ⟨a + j, by omega, by omega, hj3, ?_⟩
  rw [List.getElem_take] at hx
  rw [List.getElem_drop] at hx
  rw [List.getD_eq_getElem src 0 hj3, hx]

theorem sliceBytes_ne_nil (src : List Nat) (a b : Nat) (ha : a < b)
    (hb : a < src.length) : sliceBytes src a b ≠ [] := by
  unfold sliceBytes
  intro h
  rw [List.take_eq_nil_iff] at h
  rcases h with h | h
  · omega
  · rw [List.drop_eq_nil_iff] at h
    omega

/-! Facts about `takeWhile`, `dropWhile` and `fastFloatParse`. -/

theorem takeWhile_all_eq (p : Nat → Bool) (l : List Nat)
    (h : ∀ x ∈ l, p x = true) :
    l.takeWhile p = l ∧ l.dropWhile p = [] := by
  induction l with
  | nil => simp
  | cons x xs ih =>
    have hx : p x = true := h x (by simp)
    have ihx := ih fun y hy => h y (by simp [hy])
    simp [List.takeWhile_cons, List.dropWhile_cons, hx, ihx.1, ihx.2]

theorem takeWhile_append_stop (p : Nat → Bool) (A : List Nat) (b : Nat)
    (B : List Nat) (hA : ∀ x ∈ A, p x = true) (hb : p b = false) :
    (A ++ b :: B).takeWhile p = A ∧ (A ++ b :: B).dropWhile p = b :: B := by
  induction A with
  | nil => simp [List.takeWhile_cons, List.dropWhile_cons, hb]
  | cons x xs ih =>
    have hx : p x = true := hA x (by simp)
    have ihx := ih fun y hy => hA y (by simp [hy])
    simp [List.takeWhile_cons, List.dropWhile_cons, hx, ihx.1, ihx.2]

theorem fastFloatParse_allDigits (bs : List Nat) (h0 : bs ≠ [])
    (h : ∀ x ∈ bs, isDigit x = true) :
    fastFloatParse bs = some (mkRat (digitsVal bs) 1) := by
  obtain ⟨ht, hd⟩ := takeWhile_all_eq isDigit bs h
  unfold fastFloatParse
  rw [hd, ht]
  simp [h0]

theorem fastFloatParse_dot (A B : List Nat) (hA0 : A ≠ [])
    (hA : ∀ x ∈ A, isDigit x = true) (hB0 : B ≠ [])
    (hB : ∀ x ∈ B, isDigit x = true) :
    ∃ v, fastFloatParse (A ++ 46 :: B) = some v := by
  obtain ⟨ht, hd⟩ := takeWhile_append_stop isDigit A 46 B hA rfl
  unfold fastFloatParse
  rw [hd, ht]
  have hall : B.all isDigit = true := by
    rw [List.all_eq_true]
    exact hB
  simp [hA0, hB0, hall]

/-! Master lemmas for the four inner loops: field preservation, cursor
bounds, maintenance of the line/`lineAt` relation, and fuel adequacy. -/

theorem commentLoop_spec (fuel : Nat) (s : ScanState) :
    (commentLoop fuel s).source = s.source ∧
    (commentLoop fuel s).start = s.start ∧
    (commentLoop fuel s).line = s.line ∧
    (commentLoop fuel s).tokens = s.tokens ∧
    (commentLoop fuel s).hadError = s.hadError ∧
    (commentLoop fuel s).reports = s.reports ∧
    (commentLoop fuel s).oob = s.oob ∧
    s.current ≤ (commentLoop fuel s).current ∧
    (s.current ≤ s.source.length →
      (commentLoop fuel s).current ≤ s.source.length) ∧
    (s.line = lineAt s.source s.current →
      (commentLoop fuel s).line = lineAt s.source (commentLoop fuel s).current) ∧
    (s.source.length - s.current < fuel →
      (peek (commentLoop fuel s) != 10 && !isAtEnd (commentLoop fuel s)) =
        false) := by
  induction fuel generalizing s with
  | zero =>
    exact ⟨rfl, rfl, rfl, rfl, rfl, rfl, rfl, Nat.le_refl _, fun h => h,
      fun h => h, fun h => absurd h (by omega)⟩
  | succ fuel ih =>
    rw [commentLoop]
    split
    · rename_i hguard
      rw [Bool.and_eq_true] at hguard
      obtain ⟨hg1, hg2⟩ := hguard
      have hend : isAtEnd s = false := by
        revert hg2
        cases isAtEnd s <;> simp
      have hlt : s.current < s.source.length :=
        (isAtEnd_eq_false_iff s).1 hend
      have hb : s.source.getD s.current 0 ≠ 10 := by
        rw [peek_of_lt s hlt] at hg1
        exact bne_iff_ne.1 hg1
      have ha := ih (advance s).2
      rw [advance_source, advance_start, advance_line, advance_tokens,
        advance_hadError, advance_reports, advance_oob s hlt,
        advance_current] at ha
      obtain ⟨a1, a2, a3, a4, a5, a6, a7, a8, a9, a10, a11⟩ := ha
      refine ⟨a1, a2, a3, a4, a5, a6, a7, by omega, fun _ => a9 (by omega),
        fun hl => ?_, fun hf => a11 (by omega)⟩
      apply a10
      rw [hl]
      exact (lineAt_succ_ne s.source s.current hlt hb).symm
    · rename_i hguard
      have hg : (peek s != 10 && !isAtEnd s) = false :=
        Bool.eq_false_iff.mpr hguard
      exact ⟨rfl, rfl, rfl, rfl, rfl, rfl, rfl, Nat.le_refl _, fun h => h,
        fun h => h, fun _ => hg⟩

theorem stringLoop_spec (fuel : Nat) (s : ScanState) :
    (stringLoop fuel s).source = s.source ∧
    (stringLoop fuel s).start = s.start ∧
    (stringLoop fuel s).tokens = s.tokens ∧
    (stringLoop fuel s).hadError = s.hadError ∧
    (stringLoop fuel s).reports = s.reports ∧
    (stringLoop fuel s).oob = s.oob ∧
    s.current ≤ (stringLoop fuel s).current ∧
    (s.current ≤ s.source.length →
      (stringLoop fuel s).current ≤ s.source.length) ∧
    (s.line = lineAt s.source s.current →
      (stringLoop fuel s).line = lineAt s.source (stringLoop fuel s).current) ∧
    (s.source.length - s.current < fuel →
      (peek (stringLoop fuel s) != 34 && !isAtEnd (stringLoop fuel s)) =
        false) := by
  induction fuel generalizing s with
  | zero =>
    exact ⟨rfl, rfl, rfl, rfl, rfl, rfl, Nat.le_refl _, fun h => h,
      fun h => h, fun h => absurd h (by omega)⟩
  | succ fuel ih =>
    rw [stringLoop]
    split
    · rename_i hguard
      rw [Bool.and_eq_true] at hguard
      obtain ⟨hg1, hg2⟩ := hguard
      have hend : isAtEnd s = false := by
        revert hg2
        cases isAtEnd s <;> simp
      have hlt : s.current < s.source.length :=
        (isAtEnd_eq_false_iff s).1 hend
      set s1 : ScanState :=
        if peek s = 10 then { s with line := s.line + 1 } else s with hs1
      have hs1src : s1.source = s.source := by
        rw [hs1]
        split <;> rfl
      have hs1start : s1.start = s.start := by
        rw [hs1]
        split <;> rfl
      have hs1cur : s1.current = s.current := by
        rw [hs1]
        split <;> rfl
      have hs1tok : s1.tokens = s.tokens := by
        rw [hs1]
        split <;> rfl
      have hs1err : s1.hadError = s.hadError := by
        rw [hs1]
        split <;> rfl
      have hs1rep : s1.reports = s.reports := by
        rw [hs1]
        split <;> rfl
      have hs1oob : s1.oob = s.oob := by
        rw [hs1]
        split <;> rfl
      have hs1lt : s1.current < s1.source.length := by
        rw [hs1src, hs1cur]
        exact hlt
      have ha := ih (advance s1).2
      rw [advance_source, advance_start, advance_tokens,
        advance_hadError, advance_reports, advance_oob s1 hs1lt,
        advance_current, hs1src, hs1start, hs1cur, hs1tok, hs1err, hs1rep,
        hs1oob] at ha
      obtain ⟨a1, a2, a3, a4, a5, a6, a7, a8, a9, a10⟩ := ha
      refine ⟨a1, a2, a3, a4, a5, a6, by omega, fun _ => a8 (by omega),
        fun hl => ?_, fun hf => a10 (by omega)⟩
      apply a9
      rw [advance_line]
      by_cases hnl : peek s = 10
      · have hb : s.source.getD s.current 0 = 10 := by
          rw [peek_of_lt s hlt] at hnl
          exact hnl
        have : s1.line = s.line + 1 := by
          rw [hs1, if_pos hnl]
        rw [this, hl]
        exact (lineAt_succ_nl s.source s.current hlt hb).symm
      · have hb : s.source.getD s.current 0 ≠ 10 := by
          rw [peek_of_lt s hlt] at hnl
          exact hnl
        have : s1.line = s.line := by
          rw [hs1, if_neg hnl]
        rw [this, hl]
        exact (lineAt_succ_ne s.source s.current hlt hb).symm
    · rename_i hguard
      have hg : (peek s != 34 && !isAtEnd s) = false :=
        Bool.eq_false_iff.mpr hguard
      exact ⟨rfl, rfl, rfl, rfl, rfl, rfl, Nat.le_refl _, fun h => h,
        fun h => h, fun _ => hg⟩

theorem digitLoop_spec (fuel : Nat) (s : ScanState) :
    (digitLoop fuel s).source = s.source ∧
    (digitLoop fuel s).start = s.start ∧
    (digitLoop fuel s).line = s.line ∧
    (digitLoop fuel s).tokens = s.tokens ∧
    (digitLoop fuel s).hadError = s.hadError ∧
    (digitLoop fuel s).reports = s.reports ∧
    (digitLoop fuel s).oob = s.oob ∧
    s.current ≤ (digitLoop fuel s).current ∧
    (digitLoop fuel s).current ≤ max s.current s.source.length ∧
    (s.line = lineAt s.source s.current →
      (digitLoop fuel s).line = lineAt s.source (digitLoop fuel s).current) ∧
    (s.source.length - s.current < fuel →
      isDigit (peek (digitLoop fuel s)) = false) ∧
    (∀ i, s.current ≤ i → i < (digitLoop fuel s).current →
      isDigit (s.source.getD i 0) = true) := by
  induction fuel generalizing s with
  | zero =>
    rw [digitLoop]
    exact ⟨rfl, rfl, rfl, rfl, rfl, rfl, rfl, Nat.le_refl _,
      Nat.le_max_left _ _, fun h => h, fun h => absurd h (by omega),
      fun i h1 h2 => absurd (Nat.lt_of_le_of_lt h1 h2) (Nat.lt_irrefl _)⟩
  | succ fuel ih =>
    rw [digitLoop]
    split
    · rename_i hguard
      have hlt : s.current < s.source.length := isDigit_peek_lt s hguard
      have hb : isDigit (s.source.getD s.current 0) = true := by
        rw [peek_of_lt s hlt] at hguard
        exact hguard
      have hb10 : s.source.getD s.current 0 ≠ 10 := by
        intro hc
        rw [hc] at hb
        simp [isDigit] at hb
      have ha := ih (advance s).2
      rw [advance_source, advance_start, advance_line, advance_tokens,
        advance_hadError, advance_reports, advance_oob s hlt,
        advance_current] at ha
      obtain ⟨a1, a2, a3, a4, a5, a6, a7, a8, a9, a10, a11, a12⟩ := ha
      refine ⟨a1, a2, a3, a4, a5, a6, a7, by omega, by omega,
        fun hl => ?_, fun hf => a11 (by omega), fun i h1 h2 => ?_⟩
      · apply a10
        rw [hl]
        exact (lineAt_succ_ne s.source s.current hlt hb10).symm
      · rcases Nat.eq_or_lt_of_le h1 with he | hgt
        · rw [← he]
          exact hb
        · exact a12 i hgt h2
    · rename_i hguard
      have hg : isDigit (peek s) = false := Bool.eq_false_iff.mpr hguard
      exact ⟨rfl, rfl, rfl, rfl, rfl, rfl, rfl, Nat.le_refl _,
        Nat.le_max_left _ _, fun h => h, fun _ => hg,
        fun i h1 h2 => absurd (Nat.lt_of_le_of_lt h1 h2) (by omega)⟩

theorem identLoop_spec (fuel : Nat) (s : ScanState) :
    (identLoop fuel s).source = s.source ∧
    (identLoop fuel s).start = s.start ∧
    (identLoop fuel s).line = s.line ∧
    (identLoop fuel s).tokens = s.tokens ∧
    (identLoop fuel s).hadError = s.hadError ∧
    (identLoop fuel s).reports = s.reports ∧
    (identLoop fuel s).oob = s.oob ∧
    s.current ≤ (identLoop fuel s).current ∧
    (s.current ≤ s.source.length →
      (identLoop fuel s).current ≤ s.source.length) ∧
    (s.line = lineAt s.source s.current →
      (identLoop fuel s).line = lineAt s.source (identLoop fuel s).current) ∧
    (s.source.length - s.current < fuel →
      isAlphaNumericByte (peek (identLoop fuel s)) = false) := by
  induction fuel generalizing s with
  | zero =>
    exact ⟨rfl, rfl, rfl, rfl, rfl, rfl, rfl, Nat.le_refl _, fun h => h,
      fun h => h, fun h => absurd h (by omega)⟩
  | succ fuel ih =>
    rw [identLoop]
    split
    · rename_i hguard
      have hlt : s.current < s.source.length :=
        isAlphaNumericByte_peek_lt s hguard
      have hb : isAlphaNumericByte (s.source.getD s.current 0) = true := by
        rw [peek_of_lt s hlt] at hguard
        exact hguard
      have hb10 : s.source.getD s.current 0 ≠ 10 := by
        intro hc
        rw [hc] at hb
        simp [isAlphaNumericByte, isAlphaByte, isDigit] at hb
      have ha := ih (advance s).2
      rw [advance_source, advance_start, advance_line, advance_tokens,
        advance_hadError, advance_reports, advance_oob s hlt,
        advance_current] at ha
      obtain ⟨a1, a2, a3, a4, a5, a6, a7, a8, a9, a10, a11⟩ := ha
      refine ⟨a1, a2, a3, a4, a5, a6, a7, by omega, fun _ => a9 (by omega),
        fun hl => ?_, fun hf => a11 (by omega)⟩
      apply a10
      rw [hl]
      exact (lineAt_succ_ne s.source s.current hlt hb10).symm
    · rename_i hguard
      have hg : isAlphaNumericByte (peek s) = false :=
        Bool.eq_false_iff.mpr hguard
      exact ⟨rfl, rfl, rfl, rfl, rfl, rfl, rfl, Nat.le_refl _, fun h => h,
        fun h => h, fun _ => hg⟩

/-- Well-formedness of an accumulated token list: no end-of-input token yet,
every span is a non-empty sub-range of the buffer ending at or before `bound`,
every recorded line is the line of the span's end, and spans are pairwise
ordered left to right without overlap. -/
def TokensOK (src : List Nat) (bound : Nat) (ts : List Token) : Prop :=
  (∀ t ∈ ts, t.tokenType ≠ TokenType.EOF ∧ t.spanStart < t.spanStop ∧
      t.spanStop ≤ bound ∧ t.line = lineAt src t.spanStop) ∧
  ts.Pairwise fun a b => a.spanStop ≤ b.spanStart

theorem TokensOK_mono (src : List Nat) (b b' : Nat) (ts : List Token)
    (h : TokensOK src b ts) (hb : b ≤ b') : TokensOK src b' ts := by
  obtain ⟨h1, h2⟩ := h
  exact ⟨fun t ht => ⟨(h1 t ht).1, (h1 t ht).2.1, (h1 t ht).2.2.1.trans hb,
    (h1 t ht).2.2.2⟩, h2⟩

theorem TokensOK_addToken (s : ScanState) (tt : TokenType)
    (h : TokensOK s.source s.start s.tokens) (h1 : s.start < s.current)
    (h2 : s.line = lineAt s.source s.current) (h3 : tt ≠ TokenType.EOF) :
    TokensOK s.source s.current (addToken s tt).tokens := by
  obtain ⟨ha, hp⟩ := h
  rw [addToken_tokens]
  constructor
  · intro t ht
    rw [List.mem_append] at ht
    rcases ht with ht | ht
    · have := ha t ht
      exact ⟨this.1, this.2.1, this.2.2.1.trans h1.le, this.2.2.2⟩
    · rw [List.mem_singleton] at ht
      subst ht
      exact ⟨h3, h1, Nat.le_refl _, h2⟩
  · rw [List.pairwise_append]
    refine ⟨hp, List.pairwise_singleton _ _, ?_⟩
    intro a hain b hbin
    rw [List.mem_singleton] at hbin
    subst hbin
    exact (ha a hain).2.2.1

/-! Field lemmas for `checkNext`. -/

@[simp] theorem checkNext_source (s : ScanState) (e : Nat) :
    (checkNext s e).2.source = s.source := by
  rw [checkNext_eq]
  split <;> rfl

@[simp] theorem checkNext_start (s : ScanState) (e : Nat) :
    (checkNext s e).2.start = s.start := by
  rw [checkNext_eq]
  split <;> rfl

@[simp] theorem checkNext_line (s : ScanState) (e : Nat) :
    (checkNext s e).2.line = s.line := by
  rw [checkNext_eq]
  split <;> rfl

@[simp] theorem checkNext_tokens (s : ScanState) (e : Nat) :
    (checkNext s e).2.tokens = s.tokens := by
  rw [checkNext_eq]
  split <;> rfl

@[simp] theorem checkNext_hadError (s : ScanState) (e : Nat) :
    (checkNext s e).2.hadError = s.hadError := by
  rw [checkNext_eq]
  split <;> rfl

@[simp] theorem checkNext_reports (s : ScanState) (e : Nat) :
    (checkNext s e).2.reports = s.reports := by
  rw [checkNext_eq]
  split <;> rfl

@[simp] theorem checkNext_oob (s : ScanState) (e : Nat) :
    (checkNext s e).2.oob = s.oob := by
  rw [checkNext_eq]
  split <;> rfl

theorem checkNext_current_ge (s : ScanState) (e : Nat) :
    s.current ≤ (checkNext s e).2.current := by
  rw [checkNext_eq]
  split
  · exact Nat.le_succ s.current
  · exact Nat.le_refl s.current

theorem checkNext_current_le (s : ScanState) (e : Nat) :
    (checkNext s e).2.current ≤ s.current + 1 := by
  rw [checkNext_eq]
  split
  · exact Nat.le_refl _
  · exact Nat.le_succ s.current

theorem checkNext_current_lt_len (s : ScanState) (e : Nat)
    (h : s.current ≤ s.source.length) :
    (checkNext s e).2.current ≤ s.source.length := by
  rw [checkNext_eq]
  split
  · rename_i hc
    simpa using hc.1
  · simpa using h

theorem checkNext_lineAt (s : ScanState) (e : Nat) (he : e ≠ 10)
    (h : s.line = lineAt s.source s.current) :
    (checkNext s e).2.line = lineAt (checkNext s e).2.source
      (checkNext s e).2.current := by
  rw [checkNext_eq]
  split
  · rename_i hc
    simpa using (h.trans
      (lineAt_succ_ne s.source s.current hc.1 (by rw [hc.2]; exact he)).symm)
  · simpa using h

/-! Branch characterization lemmas for `scanStep`: for each class of the
consumed byte, the iteration's result computed explicitly. -/

theorem scanStep_eq_punct (s0 : ScanState) (k : Nat) (tt : TokenType)
    (hmem : (k, tt) ∈ ([(40, .leftParen), (41, .rightParen), (123, .leftBrace),
      (125, .rightBrace), (44, .comma), (46, .dot), (45, .minus), (43, .plus),
      (59, .semicolon), (42, .star)] : List (Nat × TokenType)))
    (h : s0.source.getD s0.current 0 = k) :
    scanStep s0 =
      (addToken (advance { s0 with start := s0.current }).2 tt, false) := by
  simp only [List.mem_cons, List.not_mem_nil, or_false, Prod.mk.injEq] at hmem
  unfold scanStep
  simp only [advance_fst]
  rcases hmem with ⟨h1, h2⟩ | ⟨h1, h2⟩ | ⟨h1, h2⟩ | ⟨h1, h2⟩ | ⟨h1, h2⟩ |
    ⟨h1, h2⟩ | ⟨h1, h2⟩ | ⟨h1, h2⟩ | ⟨h1, h2⟩ | ⟨h1, h2⟩ <;>
      subst h1 <;> subst h2 <;> simp only [h] <;>
      (repeat rw [if_neg (by decide)]) <;> rw [if_pos (by decide)]

theorem scanStep_eq_op (s0 : ScanState) (k : Nat) (tt2 tt1 : TokenType)
    (hmem : (k, (tt2, tt1)) ∈ ([(33, (.bangEqual, .bang)),
      (61, (.equalEqual, .equal)), (60, (.lessEqual, .less)),
      (62, (.greaterEqual, .greater))] : List (Nat × (TokenType × TokenType))))
    (h : s0.source.getD s0.current 0 = k) :
    scanStep s0 =
      (let sA := (advance { s0 with start := s0.current }).2
       (addToken (checkNext sA 61).2
         (if (checkNext sA 61).1 then tt2 else tt1), false)) := by
  simp only [List.mem_cons, List.not_mem_nil, or_false, Prod.mk.injEq] at hmem
  unfold scanStep
  simp only [advance_fst]
  rcases hmem with ⟨h1, h2, h3⟩ | ⟨h1, h2, h3⟩ | ⟨h1, h2, h3⟩ |
    ⟨h1, h2, h3⟩ <;>
      subst h1 <;> subst h2 <;> subst h3 <;> simp only [h] <;>
      (repeat rw [if_neg (by decide)]) <;> rw [if_pos (by decide)]

theorem scanStep_eq_slash (s0 : ScanState)
    (h : s0.source.getD s0.current 0 = 47) :
    scanStep s0 =
      (let sA := (advance { s0 with start := s0.current }).2
       let s := (checkNext sA 47).2
       if (checkNext sA 47).1 then (commentLoop (s.source.length + 1) s, false)
       else (addToken s TokenType.slash, false)) := by
  unfold scanStep
  simp only [advance_fst]
  simp only [h]
  repeat rw [if_neg (by decide)]
  rw [if_pos (by decide)]

theorem scanStep_eq_ws (s0 : ScanState) (k : Nat)
    (hmem : k ∈ ([32, 13, 9] : List Nat))
    (h : s0.source.getD s0.current 0 = k) :
    scanStep s0 = ((advance { s0 with start := s0.current }).2, false) := by
  simp only [List.mem_cons, List.not_mem_nil, or_false] at hmem
  unfold scanStep
  simp only [advance_fst]
  rcases hmem with h1 | h1 | h1 <;> subst h1 <;> simp only [h] <;>
    (repeat rw [if_neg (by decide)]) <;> rw [if_pos (by decide)]

theorem scanStep_eq_nl (s0 : ScanState)
    (h : s0.source.getD s0.current 0 = 10) :
    scanStep s0 =
      (let sA := (advance { s0 with start := s0.current }).2
       ({ sA with line := sA.line + 1 }, false)) := by
  unfold scanStep
  simp only [advance_fst]
  simp only [h]
  repeat rw [if_neg (by decide)]
  rw [if_pos (by decide)]

theorem scanStep_eq_quote (s0 : ScanState)
    (h : s0.source.getD s0.current 0 = 34) :
    scanStep s0 =
      (let sA := (advance { s0 with start := s0.current }).2
       let s2 := stringLoop (sA.source.length + 1) sA
       if isAtEnd s2 then (laxError s2 s2.line "unterminated string", true)
       else
         let s3 := (advance s2).2
         (addToken s3
           (.str (sliceBytes s3.source (s3.start + 1) (s3.current - 1))),
           false)) := by
  unfold scanStep
  simp only [advance_fst]
  simp only [h]
  repeat rw [if_neg (by decide)]
  rw [if_pos (by decide)]

theorem scanStep_eq_digit (s0 : ScanState)
    (hd : isDigit (s0.source.getD s0.current 0) = true) :
    scanStep s0 =
      (let sA := (advance { s0 with start := s0.current }).2
       let s2 := digitLoop (sA.source.length + 1) sA
       let s3 :=
         if peek s2 = 46 && isDigit (peekNext s2) then
           digitLoop (s2.source.length + 1) (advance s2).2
         else s2
       match fastFloatParse (sliceBytes s3.source s3.start s3.current) with
       | some v => (addToken s3 (.num v), false)
       | none => (laxError s3 s3.line "could not parse number", false)) := by
  have hrange : 48 ≤ s0.source.getD s0.current 0 ∧
      s0.source.getD s0.current 0 ≤ 57 := by
    simpa [isDigit] using hd
  unfold scanStep
  simp only [advance_fst]
  repeat rw [if_neg (by omega)]
  rw [if_neg (by simp only [Bool.or_eq_true, decide_eq_true_eq]; omega)]
  repeat rw [if_neg (by omega)]
  rw [if_pos hd]

theorem scanStep_eq_alpha (s0 : ScanState)
    (ha : isAlphaByte (s0.source.getD s0.current 0) = true) :
    scanStep s0 =
      (let sA := (advance { s0 with start := s0.current }).2
       let s2 := identLoop (sA.source.length + 1) sA
       (addToken s2
         (keywordOrIdentifier (sliceBytes s2.source s2.start s2.current)),
         false)) := by
  have hrange : ((97 ≤ s0.source.getD s0.current 0 ∧
      s0.source.getD s0.current 0 ≤ 122) ∨
      (65 ≤ s0.source.getD s0.current 0 ∧
        s0.source.getD s0.current 0 ≤ 90)) ∨
      s0.source.getD s0.current 0 = 95 := by
    simpa [isAlphaByte] using ha
  unfold scanStep
  simp only [advance_fst]
  repeat rw [if_neg (by omega)]
  rw [if_neg (by simp only [Bool.or_eq_true, decide_eq_true_eq]; omega)]
  repeat rw [if_neg (by omega)]
  have hdig : ¬ isDigit (s0.source.getD s0.current 0) = true := by
    simp only [isDigit, Bool.and_eq_true, decide_eq_true_eq]
    omega
  rw [if_neg hdig, if_pos ha]

theorem scanStep_eq_other (s0 : ScanState)
    (hs : ∀ k ∈ ([40, 41, 123, 125, 44, 46, 45, 43, 59, 42, 33, 61, 60, 62,
      47, 32, 13, 9, 10, 34] : List Nat), s0.source.getD s0.current 0 ≠ k)
    (hd : isDigit (s0.source.getD s0.current 0) = false)
    (ha : isAlphaByte (s0.source.getD s0.current 0) = false) :
    scanStep s0 =
      (let sA := (advance { s0 with start := s0.current }).2
       (laxError sA sA.line "unexpected character", false)) := by
  have hs' : ∀ k ∈ ([40, 41, 123, 125, 44, 46, 45, 43, 59, 42, 33, 61, 60, 62,
      47, 32, 13, 9, 10, 34] : List Nat), ¬ s0.source.getD s0.current 0 = k :=
    hs
  unfold scanStep
  simp only [advance_fst]
  rw [if_neg (hs' 40 (by norm_num)), if_neg (hs' 41 (by norm_num)),
    if_neg (hs' 123 (by norm_num)), if_neg (hs' 125 (by norm_num)),
    if_neg (hs' 44 (by norm_num)), if_neg (hs' 46 (by norm_num)),
    if_neg (hs' 45 (by norm_num)), if_neg (hs' 43 (by norm_num)),
    if_neg (hs' 59 (by norm_num)), if_neg (hs' 42 (by norm_num)),
    if_neg (hs' 33 (by norm_num)), if_neg (hs' 61 (by norm_num)),
    if_neg (hs' 60 (by norm_num)), if_neg (hs' 62 (by norm_num)),
    if_neg (hs' 47 (by norm_num)),
    if_neg (by
      simp only [Bool.or_eq_true, decide_eq_true_eq]
      push_neg
      exact ⟨⟨hs' 32 (by norm_num), hs' 13 (by norm_num)⟩,
        hs' 9 (by norm_num)⟩),
    if_neg (hs' 10 (by norm_num)), if_neg (hs' 34 (by norm_num)),
    if_neg (fun hc => absurd (hd.symm.trans hc) Bool.false_ne_true),
    if_neg (fun hc => absurd (ha.symm.trans hc) Bool.false_ne_true)]

/-! Per-field corollaries of the loop master lemmas. -/

theorem commentLoop_source (f : Nat) (s : ScanState) :
    (commentLoop f s).source = s.source := (commentLoop_spec f s).1

theorem commentLoop_start (f : Nat) (s : ScanState) :
    (commentLoop f s).start = s.start := (commentLoop_spec f s).2.1

theorem commentLoop_line (f : Nat) (s : ScanState) :
    (commentLoop f s).line = s.line := (commentLoop_spec f s).2.2.1

theorem commentLoop_tokens (f : Nat) (s : ScanState) :
    (commentLoop f s).tokens = s.tokens := (commentLoop_spec f s).2.2.2.1

theorem commentLoop_hadError (f : Nat) (s : ScanState) :
    (commentLoop f s).hadError = s.hadError :=
  (commentLoop_spec f s).2.2.2.2.1

theorem commentLoop_reports (f : Nat) (s : ScanState) :
    (commentLoop f s).reports = s.reports :=
  (commentLoop_spec f s).2.2.2.2.2.1

theorem commentLoop_oob (f : Nat) (s : ScanState) :
    (commentLoop f s).oob = s.oob := (commentLoop_spec f s).2.2.2.2.2.2.1

theorem commentLoop_current_ge (f : Nat) (s : ScanState) :
    s.current ≤ (commentLoop f s).current :=
  (commentLoop_spec f s).2.2.2.2.2.2.2.1

theorem commentLoop_current_le (f : Nat) (s : ScanState)
    (h : s.current ≤ s.source.length) :
    (commentLoop f s).current ≤ s.source.length :=
  (commentLoop_spec f s).2.2.2.2.2.2.2.2.1 h

theorem commentLoop_lineAt (f : Nat) (s : ScanState)
    (h : s.line = lineAt s.source s.current) :
    (commentLoop f s).line = lineAt s.source (commentLoop f s).current :=
  (commentLoop_spec f s).2.2.2.2.2.2.2.2.2.1 h

theorem stringLoop_source (f : Nat) (s : ScanState) :
    (stringLoop f s).source = s.source := (stringLoop_spec f s).1

theorem stringLoop_start (f : Nat) (s : ScanState) :
    (stringLoop f s).start = s.start := (stringLoop_spec f s).2.1

theorem stringLoop_tokens (f : Nat) (s : ScanState) :
    (stringLoop f s).tokens = s.tokens := (stringLoop_spec f s).2.2.1

theorem stringLoop_hadError (f : Nat) (s : ScanState) :
    (stringLoop f s).hadError = s.hadError := (stringLoop_spec f s).2.2.2.1

theorem stringLoop_reports (f : Nat) (s : ScanState) :
    (stringLoop f s).reports = s.reports := (stringLoop_spec f s).2.2.2.2.1

theorem stringLoop_oob (f : Nat) (s : ScanState) :
    (stringLoop f s).oob = s.oob := (stringLoop_spec f s).2.2.2.2.2.1

theorem stringLoop_current_ge (f : Nat) (s : ScanState) :
    s.current ≤ (stringLoop f s).current :=
  (stringLoop_spec f s).2.2.2.2.2.2.1

theorem stringLoop_current_le (f : Nat) (s : ScanState)
    (h : s.current ≤ s.source.length) :
    (stringLoop f s).current ≤ s.source.length :=
  (stringLoop_spec f s).2.2.2.2.2.2.2.1 h

theorem stringLoop_lineAt (f : Nat) (s : ScanState)
    (h : s.line = lineAt s.source s.current) :
    (stringLoop f s).line = lineAt s.source (stringLoop f s).current :=
  (stringLoop_spec f s).2.2.2.2.2.2.2.2.1 h

theorem stringLoop_adequate (f : Nat) (s : ScanState)
    (h : s.source.length - s.current < f) :
    (peek (stringLoop f s) != 34 && !isAtEnd (stringLoop f s)) = false :=
  (stringLoop_spec f s).2.2.2.2.2.2.2.2.2 h

theorem digitLoop_source (f : Nat) (s : ScanState) :
    (digitLoop f s).source = s.source := (digitLoop_spec f s).1

theorem digitLoop_start (f : Nat) (s : ScanState) :
    (digitLoop f s).start = s.start := (digitLoop_spec f s).2.1

theorem digitLoop_line (f : Nat) (s : ScanState) :
    (digitLoop f s).line = s.line := (digitLoop_spec f s).2.2.1

theorem digitLoop_tokens (f : Nat) (s : ScanState) :
    (digitLoop f s).tokens = s.tokens := (digitLoop_spec f s).2.2.2.1

theorem digitLoop_hadError (f : Nat) (s : ScanState) :
    (digitLoop f s).hadError = s.hadError := (digitLoop_spec f s).2.2.2.2.1

theorem digitLoop_reports (f : Nat) (s : ScanState) :
    (digitLoop f s).reports = s.reports := (digitLoop_spec f s).2.2.2.2.2.1

theorem digitLoop_oob (f : Nat) (s : ScanState) :
    (digitLoop f s).oob = s.oob := (digitLoop_spec f s).2.2.2.2.2.2.1

theorem digitLoop_current_ge (f : Nat) (s : ScanState) :
    s.current ≤ (digitLoop f s).current :=
  (digitLoop_spec f s).2.2.2.2.2.2.2.1

theorem digitLoop_current_max (f : Nat) (s : ScanState) :
    (digitLoop f s).current ≤ max s.current s.source.length :=
  (digitLoop_spec f s).2.2.2.2.2.2.2.2.1

theorem digitLoop_lineAt (f : Nat) (s : ScanState)
    (h : s.line = lineAt s.source s.current) :
    (digitLoop f s).line = lineAt s.source (digitLoop f s).current :=
  (digitLoop_spec f s).2.2.2.2.2.2.2.2.2.1 h

theorem digitLoop_adequate (f : Nat) (s : ScanState)
    (h : s.source.length - s.current < f) :
    isDigit (peek (digitLoop f s)) = false :=
  (digitLoop_spec f s).2.2.2.2.2.2.2.2.2.2.1 h

theorem digitLoop_region (f : Nat) (s : ScanState) :
    ∀ i, s.current ≤ i → i < (digitLoop f s).current →
      isDigit (s.source.getD i 0) = true :=
  (digitLoop_spec f s).2.2.2.2.2.2.2.2.2.2.2

theorem digitLoop_progress (f : Nat) (s : ScanState) (hf : 0 < f)
    (hd : isDigit (peek s) = true) : s.current < (digitLoop f s).current := by
  cases f with
  | zero => omega
  | succ n =>
    rw [digitLoop, if_pos hd]
    have h := digitLoop_current_ge n (advance s).2
    rw [advance_current] at h
    omega

theorem identLoop_source (f : Nat) (s : ScanState) :
    (identLoop f s).source = s.source := (identLoop_spec f s).1

theorem identLoop_start (f : Nat) (s : ScanState) :
    (identLoop f s).start = s.start := (identLoop_spec f s).2.1

theorem identLoop_line (f : Nat) (s : ScanState) :
    (identLoop f s).line = s.line := (identLoop_spec f s).2.2.1

theorem identLoop_tokens (f : Nat) (s : ScanState) :
    (identLoop f s).tokens = s.tokens := (identLoop_spec f s).2.2.2.1

theorem identLoop_hadError (f : Nat) (s : ScanState) :
    (identLoop f s).hadError = s.hadError := (identLoop_spec f s).2.2.2.2.1

theorem identLoop_reports (f : Nat) (s : ScanState) :
    (identLoop f s).reports = s.reports := (identLoop_spec f s).2.2.2.2.2.1

theorem identLoop_oob (f : Nat) (s : ScanState) :
    (identLoop f s).oob = s.oob := (identLoop_spec f s).2.2.2.2.2.2.1

theorem identLoop_current_ge (f : Nat) (s : ScanState) :
    s.current ≤ (identLoop f s).current :=
  (identLoop_spec f s).2.2.2.2.2.2.2.1

theorem identLoop_current_le (f : Nat) (s : ScanState)
    (h : s.current ≤ s.source.length) :
    (identLoop f s).current ≤ s.source.length :=
  (identLoop_spec f s).2.2.2.2.2.2.2.2.1 h

theorem identLoop_lineAt (f : Nat) (s : ScanState)
    (h : s.line = lineAt s.source s.current) :
    (identLoop f s).line = lineAt s.source (identLoop f s).current :=
  (identLoop_spec f s).2.2.2.2.2.2.2.2.2.1 h

/-- Exhaustive classification of the consumed byte into the branches of the
scanner's dispatch. -/
theorem scanByte_cases (b : Nat) :
    (∃ tt, (b, tt) ∈ ([(40, .leftParen), (41, .rightParen), (123, .leftBrace),
      (125, .rightBrace), (44, .comma), (46, .dot), (45, .minus), (43, .plus),
      (59, .semicolon), (42, .star)] : List (Nat × TokenType))) ∨
    (∃ p, (b, p) ∈ ([(33, (.bangEqual, .bang)), (61, (.equalEqual, .equal)),
      (60, (.lessEqual, .less)), (62, (.greaterEqual, .greater))] :
        List (Nat × (TokenType × TokenType)))) ∨
    b = 47 ∨
    b ∈ ([32, 13, 9] : List Nat) ∨
    b = 10 ∨
    b = 34 ∨
    isDigit b = true ∨
    isAlphaByte b = true ∨
    ((∀ k ∈ ([40, 41, 123, 125, 44, 46, 45, 43, 59, 42, 33, 61, 60, 62, 47,
        32, 13, 9, 10, 34] : List Nat), b ≠ k) ∧ isDigit b = false ∧
      isAlphaByte b = false) := by
  by_cases h40 : b = 40
  · exact Or.inl ⟨.leftParen, by subst h40; simp⟩
  by_cases h41 : b = 41
  · exact Or.inl ⟨.rightParen, by subst h41; simp⟩
  by_cases h123 : b = 123
  · exact Or.inl ⟨.leftBrace, by subst h123; simp⟩
  by_cases h125 : b = 125
  · exact Or.inl ⟨.rightBrace, by subst h125; simp⟩
  by_cases h44 : b = 44
  · exact Or.inl ⟨.comma, by subst h44; simp⟩
  by_cases h46 : b = 46
  · exact Or.inl ⟨.dot, by subst h46; simp⟩
  by_cases h45 : b = 45
  · exact Or.inl ⟨.minus, by subst h45; simp⟩
  by_cases h43 : b = 43
  · exact Or.inl ⟨.plus, by subst h43; simp⟩
  by_cases h59 : b = 59
  · exact Or.inl ⟨.semicolon, by subst h59; simp⟩
  by_cases h42 : b = 42
  · exact Or.inl ⟨.star, by subst h42; simp⟩
  by_cases h33 : b = 33
  · exact Or.inr (Or.inl ⟨(.bangEqual, .bang), by subst h33; simp⟩)
  by_cases h61 : b = 61
  · exact Or.inr (Or.inl ⟨(.equalEqual, .equal), by subst h61; simp⟩)
  by_cases h60 : b = 60
  · exact Or.inr (Or.inl ⟨(.lessEqual, .less), by subst h60; simp⟩)
  by_cases h62 : b = 62
  · exact Or.inr (Or.inl ⟨(.greaterEqual, .greater), by subst h62; simp⟩)
  by_cases h47 : b = 47
  · exact Or.inr (Or.inr (Or.inl h47))
  by_cases h32 : b = 32
  · exact Or.inr (Or.inr (Or.inr (Or.inl (by subst h32; simp))))
  by_cases h13 : b = 13
  · exact Or.inr (Or.inr (Or.inr (Or.inl (by subst h13; simp))))
  by_cases h9 : b = 9
  · exact Or.inr (Or.inr (Or.inr (Or.inl (by subst h9; simp))))
  by_cases h10 : b = 10
  · exact Or.inr (Or.inr (Or.inr (Or.inr (Or.inl h10))))
  by_cases h34 : b = 34
  · exact Or.inr (Or.inr (Or.inr (Or.inr (Or.inr (Or.inl h34)))))
  by_cases hdig : isDigit b = true
  · exact Or.inr (Or.inr (Or.inr (Or.inr (Or.inr (Or.inr (Or.inl hdig))))))
  by_cases halpha : isAlphaByte b = true
  · exact Or.inr (Or.inr (Or.inr (Or.inr (Or.inr (Or.inr (Or.inr
      (Or.inl halpha)))))))
  refine Or.inr (Or.inr (Or.inr (Or.inr (Or.inr (Or.inr (Or.inr (Or.inr
    ⟨?_, Bool.eq_false_iff.mpr hdig, Bool.eq_false_iff.mpr halpha⟩)))))))
  intro k hk
  fin_cases hk <;> assumption

/-- Every single outer-loop iteration only appends to the report list, and
the had-error flag after the iteration is the old flag or-ed with whether a
new report was emitted.  Holds for every state, with no invariant assumed. -/
theorem scanStep_reports (s0 : ScanState) :
    ∃ new, (scanStep s0).1.reports = s0.reports ++ new ∧
      (scanStep s0).1.hadError = (s0.hadError || !new.isEmpty) := by
  rcases scanByte_cases (s0.source.getD s0.current 0) with
    ⟨tt, hmem⟩ | ⟨⟨tt2, tt1⟩, hmem⟩ | h | hmem | h | h | h | h | ⟨hs, hd, ha⟩
  · rw [scanStep_eq_punct s0 _ tt hmem rfl]
    exact ⟨[], by simp, by simp⟩
  · rw [scanStep_eq_op s0 _ tt2 tt1 hmem rfl]
    exact ⟨[], by simp, by simp⟩
  · simp only [scanStep_eq_slash s0 h]
    split
    · exact ⟨[], by simp [commentLoop_reports], by simp [commentLoop_hadError]⟩
    · exact ⟨[], by simp, by simp⟩
  · rw [scanStep_eq_ws s0 _ hmem rfl]
    exact ⟨[], by simp, by simp⟩
  · simp only [scanStep_eq_nl s0 h]
    exact ⟨[], by simp, by simp⟩
  · simp only [scanStep_eq_quote s0 h]
    split
    · simp only [laxError_reports, laxError_hadError, stringLoop_reports,
        stringLoop_hadError, advance_reports, advance_hadError]
      exact ⟨_, rfl, by simp⟩
    · exact ⟨[], by simp [stringLoop_reports], by simp [stringLoop_hadError]⟩
  · simp only [scanStep_eq_digit s0 h]
    split
    · split <;>
        exact ⟨[], by simp [digitLoop_reports], by simp [digitLoop_hadError]⟩
    · split <;>
        · simp only [laxError_reports, laxError_hadError, digitLoop_reports,
            digitLoop_hadError, advance_reports, advance_hadError]
          exact ⟨_, rfl, by simp⟩
  · simp only [scanStep_eq_alpha s0 h]
    exact ⟨[], by simp [identLoop_reports], by simp [identLoop_hadError]⟩
  · simp only [scanStep_eq_other s0 hs hd ha]
    simp only [laxError_reports, laxError_hadError, advance_reports,
      advance_hadError]
    exact ⟨_, rfl, by simp⟩

theorem keywordOrIdentifier_ne_EOF (bs : List Nat) :
    keywordOrIdentifier bs ≠ TokenType.EOF := by
  unfold keywordOrIdentifier
  by_cases h0 : bs = [97, 110, 100]
  · rw [if_pos h0]
    simp
  rw [if_neg h0]
  by_cases h1 : bs = [99, 108, 97, 115, 115]
  · rw [if_pos h1]
    simp
  rw [if_neg h1]
  by_cases h2 : bs = [101, 108, 115, 101]
  · rw [if_pos h2]
    simp
  rw [if_neg h2]
  by_cases h3 : bs = [102, 97, 108, 115, 101]
  · rw [if_pos h3]
    simp
  rw [if_neg h3]
  by_cases h4 : bs = [102, 117, 110]
  · rw [if_pos h4]
    simp
  rw [if_neg h4]
  by_cases h5 : bs = [102, 111, 114]
  · rw [if_pos h5]
    simp
  rw [if_neg h5]
  by_cases h6 : bs = [105, 102]
  · rw [if_pos h6]
    simp
  rw [if_neg h6]
  by_cases h7 : bs = [110, 105, 108]
  · rw [if_pos h7]
    simp
  rw [if_neg h7]
  by_cases h8 : bs = [111, 114]
  · rw [if_pos h8]
    simp
  rw [if_neg h8]
  by_cases h9 : bs = [112, 114, 105, 110, 116]
  · rw [if_pos h9]
    simp
  rw [if_neg h9]
  by_cases h10 : bs = [114, 101, 116, 117, 114, 110]
  · rw [if_pos h10]
    simp
  rw [if_neg h10]
  by_cases h11 : bs = [115, 117, 112, 101, 114]
  · rw [if_pos h11]
    simp
  rw [if_neg h11]
  by_cases h12 : bs = [116, 104, 105, 115]
  · rw [if_pos h12]
    simp
  rw [if_neg h12]
  by_cases h13 : bs = [116, 114, 117, 101]
  · rw [if_pos h13]
    simp
  rw [if_neg h13]
  by_cases h14 : bs = [118, 97, 114]
  · rw [if_pos h14]
    simp
  rw [if_neg h14]
  by_cases h15 : bs = [119, 104, 105, 108, 101]
  · rw [if_pos h15]
    simp
  rw [if_neg h15]
  simp

/-- Postconditions of one outer-loop iteration starting from `s0`: the source
is untouched, the cursor advanced but stayed in bounds, the line counter
tracks consumed newlines, no out-of-bounds read happened, the accumulated
tokens are well formed up to the new cursor, and a `true` break flag implies
the scan reached end of input. -/
def StepPost (s0 : ScanState) (r : ScanState × Bool) : Prop :=
  r.1.source = s0.source ∧
  r.1.start ≤ r.1.current ∧
  r.1.current ≤ s0.source.length ∧
  s0.current < r.1.current ∧
  r.1.line = lineAt s0.source r.1.current ∧
  r.1.oob = false ∧
  TokensOK s0.source r.1.current r.1.tokens ∧
  (r.2 = true → isAtEnd r.1 = true) ∧
  (∀ p ∈ r.1.reports, p ∈ s0.reports ∨ p.2 ≠ "could not parse number")

/-- Postconditions of an iteration whose result is `(addToken s' tt, false)`,
given the facts about the intermediate state. -/
theorem step_post_addToken (s0 s' : ScanState) (tt : TokenType)
    (hsrc : s'.source = s0.source) (hst : s'.start = s0.current)
    (hc1 : s0.current < s'.current) (hc2 : s'.current ≤ s0.source.length)
    (hl : s'.line = lineAt s0.source s'.current) (ho : s'.oob = false)
    (ht : s'.tokens = s0.tokens) (hr : s'.reports = s0.reports)
    (htt : tt ≠ TokenType.EOF)
    (htok : TokensOK s0.source s0.current s0.tokens) :
    StepPost s0 (addToken s' tt, false) := by
  have htok' : TokensOK s'.source s'.start s'.tokens := by
    rw [hsrc, hst, ht]
    exact TokensOK_mono s0.source s0.current s0.current s0.tokens htok
      (Nat.le_refl _)
  have hmain := TokensOK_addToken s' tt htok' (by omega)
    (by rw [hl, hsrc]) htt
  rw [hsrc] at hmain
  exact ⟨by simp [hsrc], by simp; omega, by simp [hc2], by simp [hc1],
    by simp [hl, hsrc], by simp [ho], hmain, by simp,
    fun p hp => Or.inl (by simpa [hr] using hp)⟩

/-- Postconditions of an iteration whose result is `(s', false)` with no
token appended. -/
theorem step_post_plain (s0 s' : ScanState)
    (hsrc : s'.source = s0.source) (hst : s'.start = s0.current)
    (hc1 : s0.current < s'.current) (hc2 : s'.current ≤ s0.source.length)
    (hl : s'.line = lineAt s0.source s'.current) (ho : s'.oob = false)
    (ht : s'.tokens = s0.tokens) (hr : s'.reports = s0.reports)
    (htok : TokensOK s0.source s0.current s0.tokens) :
    StepPost s0 (s', false) := by
  refine ⟨hsrc, by simp [hst]; omega, hc2, hc1, by simp [hl], ho, ?_,
    by simp, fun p hp => Or.inl (by simpa [hr] using hp)⟩
  simp only [ht]
  exact TokensOK_mono s0.source s0.current s'.current s0.tokens htok
    (by omega)

/-- Postconditions of an iteration whose result is
`(laxError s' l m, false)` with `m` not the malformed-number message. -/
theorem step_post_err (s0 s' : ScanState) (l : Nat) (m : String)
    (hsrc : s'.source = s0.source) (hst : s'.start = s0.current)
    (hc1 : s0.current < s'.current) (hc2 : s'.current ≤ s0.source.length)
    (hl : s'.line = lineAt s0.source s'.current) (ho : s'.oob = false)
    (ht : s'.tokens = s0.tokens) (hr : s'.reports = s0.reports)
    (hm : m ≠ "could not parse number")
    (htok : TokensOK s0.source s0.current s0.tokens) :
    StepPost s0 (laxError s' l m, false) := by
  have h := step_post_plain s0 s' hsrc hst hc1 hc2 hl ho ht hr htok
  obtain ⟨p1, p2, p3, p4, p5, p6, p7, _, _⟩ := h
  refine ⟨by simpa using p1, by simpa using p2, by simpa using p3,
    by simpa using p4, by simpa using p5, by simpa using p6,
    by simpa using p7, by simp, ?_⟩
  intro p hp
  rw [laxError_reports, List.mem_append] at hp
  rcases hp with hp | hp
  · exact Or.inl (by rw [← hr]; exact hp)
  · rw [List.mem_singleton] at hp
    subst hp
    exact Or.inr hm

theorem scanStep_main_punct (s0 : ScanState) (tt : TokenType)
    (hlt : s0.current < s0.source.length)
    (hline : s0.line = lineAt s0.source s0.current) (hoob : s0.oob = false)
    (htok : TokensOK s0.source s0.current s0.tokens)
    (hmem : (s0.source.getD s0.current 0, tt) ∈
      ([(40, .leftParen), (41, .rightParen), (123, .leftBrace),
        (125, .rightBrace), (44, .comma), (46, .dot), (45, .minus),
        (43, .plus), (59, .semicolon), (42, .star)] :
          List (Nat × TokenType))) :
    StepPost s0 (scanStep s0) := by
  have hb10 : s0.source.getD s0.current 0 ≠ 10 := by
    simp only [List.mem_cons, List.not_mem_nil, or_false,
      Prod.mk.injEq] at hmem
    rcases hmem with ⟨h1, _⟩ | ⟨h1, _⟩ | ⟨h1, _⟩ | ⟨h1, _⟩ | ⟨h1, _⟩ |
      ⟨h1, _⟩ | ⟨h1, _⟩ | ⟨h1, _⟩ | ⟨h1, _⟩ | ⟨h1, _⟩ <;> omega
  have htt : tt ≠ TokenType.EOF := by
    simp only [List.mem_cons, List.not_mem_nil, or_false,
      Prod.mk.injEq] at hmem
    rcases hmem with ⟨_, h2⟩ | ⟨_, h2⟩ | ⟨_, h2⟩ | ⟨_, h2⟩ | ⟨_, h2⟩ |
      ⟨_, h2⟩ | ⟨_, h2⟩ | ⟨_, h2⟩ | ⟨_, h2⟩ | ⟨_, h2⟩ <;> subst h2 <;> simp
  rw [scanStep_eq_punct s0 _ tt hmem rfl]
  exact step_post_addToken s0 _ tt rfl rfl (Nat.lt_succ_self _) hlt
    (hline.trans (lineAt_succ_ne s0.source s0.current hlt hb10).symm)
    ((advance_oob _ hlt).trans hoob) rfl rfl htt htok

theorem scanStep_main_op (s0 : ScanState) (tt2 tt1 : TokenType)
    (hlt : s0.current < s0.source.length)
    (hline : s0.line = lineAt s0.source s0.current) (hoob : s0.oob = false)
    (htok : TokensOK s0.source s0.current s0.tokens)
    (hmem : (s0.source.getD s0.current 0, (tt2, tt1)) ∈
      ([(33, (.bangEqual, .bang)), (61, (.equalEqual, .equal)),
        (60, (.lessEqual, .less)), (62, (.greaterEqual, .greater))] :
          List (Nat × (TokenType × TokenType)))) :
    StepPost s0 (scanStep s0) := by
  have hb10 : s0.source.getD s0.current 0 ≠ 10 := by
    simp only [List.mem_cons, List.not_mem_nil, or_false,
      Prod.mk.injEq] at hmem
    rcases hmem with ⟨h1, _, _⟩ | ⟨h1, _, _⟩ | ⟨h1, _, _⟩ | ⟨h1, _, _⟩ <;>
      omega
  have htts : tt2 ≠ TokenType.EOF ∧ tt1 ≠ TokenType.EOF := by
    simp only [List.mem_cons, List.not_mem_nil, or_false,
      Prod.mk.injEq] at hmem
    rcases hmem with ⟨_, h2, h3⟩ | ⟨_, h2, h3⟩ | ⟨_, h2, h3⟩ |
      ⟨_, h2, h3⟩ <;> subst h2 <;> subst h3 <;> exact ⟨by simp, by simp⟩
  simp only [scanStep_eq_op s0 _ tt2 tt1 hmem rfl]
  obtain ⟨sA, hsA⟩ : ∃ x, x = (advance { s0 with start := s0.current }).2 :=
    ⟨_, rfl⟩
  rw [← hsA]
  have hA1 : sA.source = s0.source := by
    rw [hsA]
    rfl
  have hA2 : sA.start = s0.current := by
    rw [hsA]
    rfl
  have hA3 : sA.current = s0.current + 1 := by
    rw [hsA]
    rfl
  have hA4 : sA.line = s0.line := by
    rw [hsA]
    rfl
  have hA5 : sA.tokens = s0.tokens := by
    rw [hsA]
    rfl
  have hA6 : sA.oob = false := by
    rw [hsA]
    exact (advance_oob _ hlt).trans hoob
  have hA7 : sA.reports = s0.reports := by
    rw [hsA]
    rfl
  obtain ⟨sC, hsC⟩ : ∃ x, x = (checkNext sA 61).2 := ⟨_, rfl⟩
  rw [← hsC]
  have hC1 : sC.source = s0.source := by
    rw [hsC, checkNext_source]
    exact hA1
  have hC2 : sC.start = s0.current := by
    rw [hsC, checkNext_start]
    exact hA2
  have hC3 : s0.current + 1 ≤ sC.current := by
    rw [hsC]
    have h := checkNext_current_ge sA 61
    omega
  have hC4 : sC.current ≤ s0.source.length := by
    rw [hsC]
    have h := checkNext_current_lt_len sA 61 (by rw [hA3, hA1]; omega)
    rw [hA1] at h
    exact h
  have hC5 : sC.line = lineAt s0.source sC.current := by
    rw [hsC]
    have h := checkNext_lineAt sA 61 (by omega)
      (by
        rw [hA4, hA1, hA3]
        exact hline.trans (lineAt_succ_ne s0.source s0.current hlt hb10).symm)
    rw [checkNext_source, hA1] at h
    exact h
  have hC6 : sC.oob = false := by
    rw [hsC, checkNext_oob]
    exact hA6
  have hC7 : sC.tokens = s0.tokens := by
    rw [hsC, checkNext_tokens]
    exact hA5
  have hC8 : sC.reports = s0.reports := by
    rw [hsC, checkNext_reports]
    exact hA7
  exact step_post_addToken s0 sC _ hC1 hC2 (by omega) hC4 hC5 hC6 hC7 hC8
    (by
      cases hb : (checkNext sA 61).1
      · rw [if_neg (by simp [hb])]
        exact htts.2
      · rw [if_pos (by simp [hb])]
        exact htts.1)
    htok

theorem scanStep_main_ws (s0 : ScanState)
    (hlt : s0.current < s0.source.length)
    (hline : s0.line = lineAt s0.source s0.current) (hoob : s0.oob = false)
    (htok : TokensOK s0.source s0.current s0.tokens)
    (hmem : s0.source.getD s0.current 0 ∈ ([32, 13, 9] : List Nat)) :
    StepPost s0 (scanStep s0) := by
  have hb10 : s0.source.getD s0.current 0 ≠ 10 := by
    simp only [List.mem_cons, List.not_mem_nil, or_false] at hmem
    rcases hmem with h1 | h1 | h1 <;> omega
  rw [scanStep_eq_ws s0 _ hmem rfl]
  exact step_post_plain s0 _ rfl rfl (Nat.lt_succ_self _) hlt
    (hline.trans (lineAt_succ_ne s0.source s0.current hlt hb10).symm)
    ((advance_oob _ hlt).trans hoob) rfl rfl htok

theorem scanStep_main_nl (s0 : ScanState)
    (hlt : s0.current < s0.source.length)
    (hline : s0.line = lineAt s0.source s0.current) (hoob : s0.oob = false)
    (htok : TokensOK s0.source s0.current s0.tokens)
    (h : s0.source.getD s0.current 0 = 10) :
    StepPost s0 (scanStep s0) := by
  simp only [scanStep_eq_nl s0 h]
  exact step_post_plain s0 _ rfl rfl (Nat.lt_succ_self _) hlt
    (by
      have h2 := lineAt_succ_nl s0.source s0.current hlt h
      show s0.line + 1 = lineAt s0.source (s0.current + 1)
      omega)
    ((advance_oob _ hlt).trans hoob) rfl rfl htok

theorem scanStep_main_slash (s0 : ScanState)
    (hlt : s0.current < s0.source.length)
    (hline : s0.line = lineAt s0.source s0.current) (hoob : s0.oob = false)
    (htok : TokensOK s0.source s0.current s0.tokens)
    (h : s0.source.getD s0.current 0 = 47) :
    StepPost s0 (scanStep s0) := by
  have hb10 : s0.source.getD s0.current 0 ≠ 10 := by omega
  simp only [scanStep_eq_slash s0 h]
  obtain ⟨sA, hsA⟩ : ∃ x, x = (advance { s0 with start := s0.current }).2 :=
    ⟨_, rfl⟩
  rw [← hsA]
  have hA1 : sA.source = s0.source := by
    rw [hsA]
    rfl
  have hA2 : sA.start = s0.current := by
    rw [hsA]
    rfl
  have hA3 : sA.current = s0.current + 1 := by
    rw [hsA]
    rfl
  have hA4 : sA.line = s0.line := by
    rw [hsA]
    rfl
  have hA5 : sA.tokens = s0.tokens := by
    rw [hsA]
    rfl
  have hA6 : sA.oob = false := by
    rw [hsA]
    exact (advance_oob _ hlt).trans hoob
  have hA7 : sA.reports = s0.reports := by
    rw [hsA]
    rfl
  obtain ⟨sC, hsC⟩ : ∃ x, x = (checkNext sA 47).2 := ⟨_, rfl⟩
  rw [← hsC]
  have hC1 : sC.source = s0.source := by
    rw [hsC, checkNext_source]
    exact hA1
  have hC2 : sC.start = s0.current := by
    rw [hsC, checkNext_start]
    exact hA2
  have hC3 : s0.current + 1 ≤ sC.current := by
    rw [hsC]
    have h2 := checkNext_current_ge sA 47
    omega
  have hC4 : sC.current ≤ s0.source.length := by
    rw [hsC]
    have h2 := checkNext_current_lt_len sA 47 (by rw [hA3, hA1]; omega)
    rw [hA1] at h2
    exact h2
  have hC5 : sC.line = lineAt s0.source sC.current := by
    rw [hsC]
    have h2 := checkNext_lineAt sA 47 (by omega)
      (by
        rw [hA4, hA1, hA3]
        exact hline.trans (lineAt_succ_ne s0.source s0.current hlt hb10).symm)
    rw [checkNext_source, hA1] at h2
    exact h2
  have hC6 : sC.oob = false := by
    rw [hsC, checkNext_oob]
    exact hA6
  have hC7 : sC.tokens = s0.tokens := by
    rw [hsC, checkNext_tokens]
    exact hA5
  have hC8 : sC.reports = s0.reports := by
    rw [hsC, checkNext_reports]
    exact hA7
  split
  · refine step_post_plain s0 _ ?_ ?_ ?_ ?_ ?_ ?_ ?_ ?_ htok
    · rw [commentLoop_source]
      exact hC1
    · rw [commentLoop_start]
      exact hC2
    · have h2 := commentLoop_current_ge (sC.source.length + 1) sC
      omega
    · rw [← hC1]
      exact commentLoop_current_le (sC.source.length + 1) sC
        (by rw [hC1]; exact hC4)
    · rw [← hC1]
      exact commentLoop_lineAt (sC.source.length + 1) sC
        (by rw [hC1]; exact hC5)
    · rw [commentLoop_oob]
      exact hC6
    · rw [commentLoop_tokens]
      exact hC7
    · rw [commentLoop_reports]
      exact hC8
  · exact step_post_addToken s0 sC TokenType.slash hC1 hC2 (by omega) hC4
      hC5 hC6 hC7 hC8 (by simp) htok

theorem scanStep_main_quote (s0 : ScanState)
    (hlt : s0.current < s0.source.length)
    (hline : s0.line = lineAt s0.source s0.current) (hoob : s0.oob = false)
    (htok : TokensOK s0.source s0.current s0.tokens)
    (h : s0.source.getD s0.current 0 = 34) :
    StepPost s0 (scanStep s0) := by
  have hb10 : s0.source.getD s0.current 0 ≠ 10 := by omega
  simp only [scanStep_eq_quote s0 h]
  obtain ⟨sA, hsA⟩ : ∃ x, x = (advance { s0 with start := s0.current }).2 :=
    ⟨_, rfl⟩
  rw [← hsA]
  have hA1 : sA.source = s0.source := by
    rw [hsA]
    rfl
  have hA2 : sA.start = s0.current := by
    rw [hsA]
    rfl
  have hA3 : sA.current = s0.current + 1 := by
    rw [hsA]
    rfl
  have hA4 : sA.line = s0.line := by
    rw [hsA]
    rfl
  have hA5 : sA.tokens = s0.tokens := by
    rw [hsA]
    rfl
  have hA6 : sA.oob = false := by
    rw [hsA]
    exact (advance_oob _ hlt).trans hoob
  have hA7 : sA.reports = s0.reports := by
    rw [hsA]
    rfl
  have hadq := stringLoop_adequate (sA.source.length + 1) sA (by omega)
  obtain ⟨S, hS⟩ : ∃ x, x = stringLoop (sA.source.length + 1) sA := ⟨_, rfl⟩
  rw [← hS]
  rw [← hS] at hadq
  have hS1 : S.source = s0.source := by
    rw [hS, stringLoop_source]
    exact hA1
  have hS2 : S.start = s0.current := by
    rw [hS, stringLoop_start]
    exact hA2
  have hS3 : s0.current + 1 ≤ S.current := by
    rw [hS]
    have h2 := stringLoop_current_ge (sA.source.length + 1) sA
    omega
  have hS4 : S.current ≤ s0.source.length := by
    rw [hS, ← hA1]
    exact stringLoop_current_le (sA.source.length + 1) sA
      (by rw [hA3, hA1]; omega)
  have hS5 : S.line = lineAt s0.source S.current := by
    rw [hS, ← hA1]
    exact stringLoop_lineAt (sA.source.length + 1) sA
      (by
        rw [hA4, hA1, hA3]
        exact hline.trans (lineAt_succ_ne s0.source s0.current hlt hb10).symm)
  have hS6 : S.oob = false := by
    rw [hS, stringLoop_oob]
    exact hA6
  have hS7 : S.tokens = s0.tokens := by
    rw [hS, stringLoop_tokens]
    exact hA5
  have hS8 : S.reports = s0.reports := by
    rw [hS, stringLoop_reports]
    exact hA7
  split
  · rename_i hEnd
    refine ⟨by simpa using hS1, ?_, by simpa using hS4, ?_,
      by simpa using hS5, by simpa using hS6, ?_, ?_, ?_⟩
    · simp only [laxError_start, laxError_current]
      rw [hS2]
      omega
    · simp only [laxError_current]
      omega
    · simp only [laxError_current, laxError_tokens]
      rw [hS7]
      exact TokensOK_mono s0.source s0.current S.current s0.tokens htok
        (by omega)
    · intro _
      show isAtEnd _ = true
      rw [show isAtEnd (laxError S S.line "unterminated string") = isAtEnd S
        from rfl]
      exact hEnd
    · intro p hp
      simp only [laxError_reports, List.mem_append] at hp
      rcases hp with hp | hp
      · exact Or.inl (by rw [← hS8]; exact hp)
      · rw [List.mem_singleton] at hp
        subst hp
        exact Or.inr (by simp)
  · rename_i hEnd
    have hne2 : isAtEnd S = false := Bool.eq_false_iff.mpr hEnd
    have hSlt : S.current < s0.source.length := by
      have h2 := (isAtEnd_eq_false_iff S).1 hne2
      rw [hS1] at h2
      exact h2
    have hquote : s0.source.getD S.current 0 = 34 := by
      rw [hne2] at hadq
      simp only [Bool.not_false, Bool.and_true] at hadq
      have h2 := bne_eq_false_iff_eq.mp hadq
      rw [peek_of_lt S (by rw [hS1]; exact hSlt), hS1] at h2
      exact h2
    refine step_post_addToken s0 (advance S).2 _ (by simpa using hS1)
      (by simpa using hS2) (by simp; omega) (by simp; omega) ?_
      ((advance_oob S (by rw [hS1]; exact hSlt)).trans hS6)
      (by simpa using hS7) (by simpa using hS8) (by simp) htok
    rw [advance_line, advance_current,
      lineAt_succ_ne s0.source S.current hSlt (by omega)]
    exact hS5

theorem scanStep_main_alpha (s0 : ScanState)
    (hlt : s0.current < s0.source.length)
    (hline : s0.line = lineAt s0.source s0.current) (hoob : s0.oob = false)
    (htok : TokensOK s0.source s0.current s0.tokens)
    (ha : isAlphaByte (s0.source.getD s0.current 0) = true) :
    StepPost s0 (scanStep s0) := by
  have hb10 : s0.source.getD s0.current 0 ≠ 10 := by
    simp only [isAlphaByte, Bool.or_eq_true, Bool.and_eq_true,
      decide_eq_true_eq] at ha
    omega
  simp only [scanStep_eq_alpha s0 ha]
  obtain ⟨sA, hsA⟩ : ∃ x, x = (advance { s0 with start := s0.current }).2 :=
    ⟨_, rfl⟩
  rw [← hsA]
  have hA1 : sA.source = s0.source := by
    rw [hsA]
    rfl
  have hA2 : sA.start = s0.current := by
    rw [hsA]
    rfl
  have hA3 : sA.current = s0.current + 1 := by
    rw [hsA]
    rfl
  have hA4 : sA.line = s0.line := by
    rw [hsA]
    rfl
  have hA5 : sA.tokens = s0.tokens := by
    rw [hsA]
    rfl
  have hA6 : sA.oob = false := by
    rw [hsA]
    exact (advance_oob _ hlt).trans hoob
  have hA7 : sA.reports = s0.reports := by
    rw [hsA]
    rfl
  obtain ⟨E, hE⟩ : ∃ x, x = identLoop (sA.source.length + 1) sA := ⟨_, rfl⟩
  rw [← hE]
  have hE1 : E.source = s0.source := by
    rw [hE, identLoop_source]
    exact hA1
  have hE2 : E.start = s0.current := by
    rw [hE, identLoop_start]
    exact hA2
  have hE3 : s0.current + 1 ≤ E.current := by
    rw [hE]
    have h2 := identLoop_current_ge (sA.source.length + 1) sA
    omega
  have hE4 : E.current ≤ s0.source.length := by
    rw [hE, ← hA1]
    exact identLoop_current_le (sA.source.length + 1) sA
      (by rw [hA3, hA1]; omega)
  have hE5 : E.line = lineAt s0.source E.current := by
    rw [hE, ← hA1]
    exact identLoop_lineAt (sA.source.length + 1) sA
      (by
        rw [hA4, hA1, hA3]
        exact hline.trans (lineAt_succ_ne s0.source s0.current hlt hb10).symm)
  have hE6 : E.oob = false := by
    rw [hE, identLoop_oob]
    exact hA6
  have hE7 : E.tokens = s0.tokens := by
    rw [hE, identLoop_tokens]
    exact hA5
  have hE8 : E.reports = s0.reports := by
    rw [hE, identLoop_reports]
    exact hA7
  exact step_post_addToken s0 E _ hE1 hE2 (by omega) hE4 hE5 hE6 hE7 hE8
    (keywordOrIdentifier_ne_EOF _) htok

theorem scanStep_main_other (s0 : ScanState)
    (hlt : s0.current < s0.source.length)
    (hline : s0.line = lineAt s0.source s0.current) (hoob : s0.oob = false)
    (htok : TokensOK s0.source s0.current s0.tokens)
    (hs : ∀ k ∈ ([40, 41, 123, 125, 44, 46, 45, 43, 59, 42, 33, 61, 60, 62,
      47, 32, 13, 9, 10, 34] : List Nat), s0.source.getD s0.current 0 ≠ k)
    (hd : isDigit (s0.source.getD s0.current 0) = false)
    (ha : isAlphaByte (s0.source.getD s0.current 0) = false) :
    StepPost s0 (scanStep s0) := by
  have hb10 : s0.source.getD s0.current 0 ≠ 10 := hs 10 (by norm_num)
  simp only [scanStep_eq_other s0 hs hd ha]
  exact step_post_err s0 _ _ _ rfl rfl (Nat.lt_succ_self _) hlt
    (hline.trans (lineAt_succ_ne s0.source s0.current hlt hb10).symm)
    ((advance_oob _ hlt).trans hoob) rfl rfl (by simp) htok

theorem scanStep_main_digit (s0 : ScanState)
    (hlt : s0.current < s0.source.length)
    (hline : s0.line = lineAt s0.source s0.current) (hoob : s0.oob = false)
    (htok : TokensOK s0.source s0.current s0.tokens)
    (hd : isDigit (s0.source.getD s0.current 0) = true) :
    StepPost s0 (scanStep s0) := by
  have hb10 : s0.source.getD s0.current 0 ≠ 10 := by
    have hd' := hd
    simp only [isDigit, Bool.and_eq_true, decide_eq_true_eq] at hd'
    omega
  simp only [scanStep_eq_digit s0 hd]
  obtain ⟨sA, hsA⟩ : ∃ x, x = (advance { s0 with start := s0.current }).2 :=
    ⟨_, rfl⟩
  rw [← hsA]
  have hA1 : sA.source = s0.source := by
    rw [hsA]
    rfl
  have hA2 : sA.start = s0.current := by
    rw [hsA]
    rfl
  have hA3 : sA.current = s0.current + 1 := by
    rw [hsA]
    rfl
  have hA4 : sA.line = s0.line := by
    rw [hsA]
    rfl
  have hA5 : sA.tokens = s0.tokens := by
    rw [hsA]
    rfl
  have hA6 : sA.oob = false := by
    rw [hsA]
    exact (advance_oob _ hlt).trans hoob
  have hA7 : sA.reports = s0.reports := by
    rw [hsA]
    rfl
  have hlenA : sA.source.length = s0.source.length := by rw [hA1]
  have hreg := digitLoop_region (sA.source.length + 1) sA
  obtain ⟨D, hD⟩ : ∃ x, x = digitLoop (sA.source.length + 1) sA := ⟨_, rfl⟩
  rw [← hD]
  rw [← hD] at hreg
  have hD1 : D.source = s0.source := by
    rw [hD, digitLoop_source]
    exact hA1
  have hD2 : D.start = s0.current := by
    rw [hD, digitLoop_start]
    exact hA2
  have hD3 : s0.current + 1 ≤ D.current := by
    rw [hD]
    have h2 := digitLoop_current_ge (sA.source.length + 1) sA
    omega
  have hD4 : D.current ≤ s0.source.length := by
    rw [hD]
    have h2 := digitLoop_current_max (sA.source.length + 1) sA
    omega
  have hD5 : D.line = lineAt s0.source D.current := by
    rw [hD, ← hA1]
    exact digitLoop_lineAt (sA.source.length + 1) sA
      (by
        rw [hA4, hA1, hA3]
        exact hline.trans (lineAt_succ_ne s0.source s0.current hlt hb10).symm)
  have hD6 : D.oob = false := by
    rw [hD, digitLoop_oob]
    exact hA6
  have hD7 : D.tokens = s0.tokens := by
    rw [hD, digitLoop_tokens]
    exact hA5
  have hD8 : D.reports = s0.reports := by
    rw [hD, digitLoop_reports]
    exact hA7
  have hlenD : D.source.length = s0.source.length := by rw [hD1]
  have hregion : ∀ i, s0.current ≤ i → i < D.current →
      isDigit (s0.source.getD i 0) = true := by
    intro i h1 h2
    rcases Nat.eq_or_lt_of_le h1 with he | hgt
    · rw [← he]
      exact hd
    · have h3 := hreg i (by omega) h2
      rw [hA1] at h3
      exact h3
  by_cases hdot : (decide (peek D = 46) && isDigit (peekNext D)) = true
  · have hdot1 : peek D = 46 := by
      have h2 := hdot
      rw [Bool.and_eq_true, decide_eq_true_eq] at h2
      exact h2.1
    have hdot2 : isDigit (peekNext D) = true := by
      have h2 := hdot
      rw [Bool.and_eq_true] at h2
      exact h2.2
    rw [if_pos hdot]
    have hDlt : D.current < s0.source.length := by
      by_contra hc
      rw [peek_sentinel D (by rw [isAtEnd_eq_true_iff]; omega)] at hdot1
      omega
    have hb46 : s0.source.getD D.current 0 = 46 := by
      have h2 := peek_of_lt D (by omega)
      rw [hD1] at h2
      rw [← h2]
      exact hdot1
    have hD2lt : D.current + 1 < s0.source.length := by
      by_contra hc
      rw [peekNext_sentinel D (by omega)] at hdot2
      simp [isDigit] at hdot2
    have hbd2 : isDigit (s0.source.getD (D.current + 1) 0) = true := by
      have h2 := peekNext_of_lt D (by omega)
      rw [hD1] at h2
      rw [← h2]
      exact hdot2
    have hpk : isDigit (peek (advance D).2) = true := by
      rw [peek_of_lt (advance D).2
        (by rw [advance_current, advance_source]; omega)]
      rw [advance_current, advance_source, hD1]
      exact hbd2
    have hreg2 := digitLoop_region (D.source.length + 1) (advance D).2
    have hprog := digitLoop_progress (D.source.length + 1) (advance D).2
      (by omega) hpk
    obtain ⟨E, hEd⟩ : ∃ x, x = digitLoop (D.source.length + 1) (advance D).2 :=
      ⟨_, rfl⟩
    rw [← hEd]
    rw [← hEd] at hreg2 hprog
    rw [advance_current] at hprog
    have hE1 : E.source = s0.source := by
      rw [hEd, digitLoop_source, advance_source]
      exact hD1
    have hE2 : E.start = s0.current := by
      rw [hEd, digitLoop_start, advance_start]
      exact hD2
    have hE3 : D.current + 2 ≤ E.current := by omega
    have hE4 : E.current ≤ s0.source.length := by
      rw [hEd]
      have h2 := digitLoop_current_max (D.source.length + 1) (advance D).2
      rw [advance_current, advance_source] at h2
      omega
    have hE5 : E.line = lineAt s0.source E.current := by
      rw [hEd, ← hD1]
      exact digitLoop_lineAt (D.source.length + 1) (advance D).2
        (by
          rw [advance_line, advance_source, advance_current, hD1]
          rw [lineAt_succ_ne s0.source D.current hDlt (by omega)]
          exact hD5)
    have hE6 : E.oob = false := by
      rw [hEd, digitLoop_oob, advance_oob D (by omega)]
      exact hD6
    have hE7 : E.tokens = s0.tokens := by
      rw [hEd, digitLoop_tokens, advance_tokens]
      exact hD7
    have hE8 : E.reports = s0.reports := by
      rw [hEd, digitLoop_reports, advance_reports]
      exact hD8
    have hregB : ∀ i, D.current + 1 ≤ i → i < E.current →
        isDigit (s0.source.getD i 0) = true := by
      intro i h1 h2
      have h3 := hreg2 i (by rw [advance_current]; omega) h2
      rw [advance_source, hD1] at h3
      exact h3
    have hparse : ∃ v,
        fastFloatParse (sliceBytes E.source E.start E.current) = some v := by
      rw [hE1, hE2]
      have hsplit : sliceBytes s0.source s0.current E.current =
          sliceBytes s0.source s0.current D.current ++
            46 :: sliceBytes s0.source (D.current + 1) E.current := by
        rw [sliceBytes_append s0.source s0.current D.current E.current
          (by omega) (by omega)]
        rw [sliceBytes_append s0.source D.current (D.current + 1) E.current
          (by omega) (by omega)]
        rw [sliceBytes_single s0.source D.current hDlt, hb46]
        rfl
      rw [hsplit]
      apply fastFloatParse_dot
      · exact sliceBytes_ne_nil s0.source s0.current D.current (by omega) hlt
      · intro x hx
        obtain ⟨i, hi1, hi2, _, hi4⟩ :=
          mem_sliceBytes s0.source x s0.current D.current hx
        rw [hi4]
        exact hregion i hi1 hi2
      · exact sliceBytes_ne_nil s0.source (D.current + 1) E.current
          (by omega) hD2lt
      · intro x hx
        obtain ⟨i, hi1, hi2, _, hi4⟩ :=
          mem_sliceBytes s0.source x (D.current + 1) E.current hx
        rw [hi4]
        exact hregB i hi1 hi2
    obtain ⟨v, hv⟩ := hparse
    simp only [hv]
    exact step_post_addToken s0 E (.num v) hE1 hE2 (by omega) hE4 hE5 hE6
      hE7 hE8 (by simp) htok
  · rw [if_neg hdot]
    have hparse : ∃ v,
        fastFloatParse (sliceBytes D.source D.start D.current) = some v := by
      rw [hD1, hD2]
      refine ⟨_, fastFloatParse_allDigits _ ?_ ?_⟩
      · exact sliceBytes_ne_nil s0.source s0.current D.current (by omega) hlt
      · intro x hx
        obtain ⟨i, hi1, hi2, _, hi4⟩ :=
          mem_sliceBytes s0.source x s0.current D.current hx
        rw [hi4]
        exact hregion i hi1 hi2
    obtain ⟨v, hv⟩ := hparse
    simp only [hv]
    exact step_post_addToken s0 D (.num v) hD1 hD2 (by omega) hD4 hD5 hD6
      hD7 hD8 (by simp) htok

/-- Invariant preservation of one outer-loop iteration, for every byte
class. -/
theorem scanStep_main (s0 : ScanState) (hne : isAtEnd s0 = false)
    (hline : s0.line = lineAt s0.source s0.current) (hoob : s0.oob = false)
    (htok : TokensOK s0.source s0.current s0.tokens) :
    StepPost s0 (scanStep s0) := by
  have hlt : s0.current < s0.source.length := (isAtEnd_eq_false_iff s0).1 hne
  rcases scanByte_cases (s0.source.getD s0.current 0) with
    ⟨tt, hmem⟩ | ⟨⟨tt2, tt1⟩, hmem⟩ | h | hmem | h | h | h | h | ⟨hs, hd, ha⟩
  · exact scanStep_main_punct s0 tt hlt hline hoob htok hmem
  · exact scanStep_main_op s0 tt2 tt1 hlt hline hoob htok hmem
  · exact scanStep_main_slash s0 hlt hline hoob htok h
  · exact scanStep_main_ws s0 hlt hline hoob htok hmem
  · exact scanStep_main_nl s0 hlt hline hoob htok h
  · exact scanStep_main_quote s0 hlt hline hoob htok h
  · exact scanStep_main_digit s0 hlt hline hoob htok h
  · exact scanStep_main_alpha s0 hlt hline hoob htok h
  · exact scanStep_main_other s0 hlt hline hoob htok hs hd ha

/-- Invariant of the outer scan loop: field preservation, cursor bounds,
line tracking, no out-of-bounds reads, token well-formedness, the
impossibility of malformed-number reports, and termination adequacy of the
fuel. -/
theorem scanLoopF_inv (fuel : Nat) (s : ScanState)
    (hcur : s.current ≤ s.source.length)
    (hline : s.line = lineAt s.source s.current) (hoob : s.oob = false)
    (htok : TokensOK s.source s.current s.tokens) :
    (scanLoopF fuel s).source = s.source ∧
    s.current ≤ (scanLoopF fuel s).current ∧
    (scanLoopF fuel s).current ≤ s.source.length ∧
    (scanLoopF fuel s).line = lineAt s.source (scanLoopF fuel s).current ∧
    (scanLoopF fuel s).oob = false ∧
    TokensOK s.source (scanLoopF fuel s).current (scanLoopF fuel s).tokens ∧
    (∀ p ∈ (scanLoopF fuel s).reports, p ∈ s.reports ∨
      p.2 ≠ "could not parse number") ∧
    (s.source.length - s.current < fuel →
      isAtEnd (scanLoopF fuel s) = true) := by
  induction fuel generalizing s with
  | zero =>
    rw [scanLoopF]
    exact ⟨rfl, Nat.le_refl _, hcur, hline, hoob, htok,
      fun p hp => Or.inl hp, fun hf => absurd hf (by omega)⟩
  | succ fuel ih =>
    simp only [scanLoopF]
    split
    · rename_i hend
      exact ⟨rfl, Nat.le_refl _, hcur, hline, hoob, htok,
        fun p hp => Or.inl hp, fun _ => hend⟩
    · rename_i hend
      have hne : isAtEnd s = false := Bool.eq_false_iff.mpr hend
      obtain ⟨p1, p2, p3, p4, p5, p6, p7, p8, p9⟩ :=
        scanStep_main s hne hline hoob htok
      split
      · rename_i hbrk
        exact ⟨p1, by omega, p3, p5, p6, p7, p9, fun _ => p8 hbrk⟩
      · obtain ⟨q1, q2, q3, q4, q5, q6, q7, q8⟩ :=
          ih (scanStep s).1 (by rw [p1]; exact p3) (by rw [p1]; exact p5) p6
            (by rw [p1]; exact p7)
        rw [p1] at q1 q3 q4 q6
        refine ⟨q1, by omega, q3, q4, q5, q6, ?_, ?_⟩
        · intro p hp
          rcases q7 p hp with hp2 | hp2
          · exact p9 p hp2
          · exact Or.inr hp2
        · intro hf
          exact q8 (by rw [p1]; omega)

/-- Full specification of `scanTokens` from any state satisfying the cursor
and line invariants: the returned sequence is the accumulated well-formed
body followed by exactly one end-of-input token, the final cursor sits at
the end of the buffer, no out-of-bounds read happened, and no
malformed-number report was ever emitted. -/
theorem scanTokens_spec (s : ScanState)
    (hcur : s.current ≤ s.source.length)
    (hline : s.line = lineAt s.source s.current) (hoob : s.oob = false) :
    ∃ body eof,
      (scanTokens s).1 = body ++ [eof] ∧
      (scanTokens s).2.tokens = body ++ [eof] ∧
      eof.tokenType = TokenType.EOF ∧
      eof.spanStart = s.source.length ∧
      eof.spanStop = s.source.length ∧
      eof.line = lineAt s.source s.source.length ∧
      TokensOK s.source s.source.length body ∧
      (scanTokens s).2.current = s.source.length ∧
      (scanTokens s).2.source = s.source ∧
      (scanTokens s).2.oob = false ∧
      (scanTokens s).2.line = lineAt s.source s.source.length ∧
      (∀ p ∈ (scanTokens s).2.reports, p ∈ s.reports ∨
        p.2 ≠ "could not parse number") := by
  obtain ⟨X, hX⟩ :
      ∃ x, x = scanLoopF (s.source.length + 1) { s with tokens := [] } :=
    ⟨_, rfl⟩
  have hinv := scanLoopF_inv (s.source.length + 1) { s with tokens := [] }
    hcur hline hoob
    ⟨fun t ht => absurd ht (List.not_mem_nil t), List.Pairwise.nil⟩
  rw [← hX] at hinv
  obtain ⟨q1, q2, q3, q4, q5, q6, q7, q8⟩ := hinv
  have q1' : X.source = s.source := q1
  have q2' : s.current ≤ X.current := q2
  have q3' : X.current ≤ s.source.length := q3
  have q4' : X.line = lineAt s.source X.current := q4
  have q6' : TokensOK s.source X.current X.tokens := q6
  have q7' : ∀ p ∈ X.reports, p ∈ s.reports ∨
      p.2 ≠ "could not parse number" := q7
  have q8' : isAtEnd X = true := q8 (by
    show s.source.length - s.current < s.source.length + 1
    omega)
  have hcur' : X.current = s.source.length := by
    rw [isAtEnd_eq_true_iff] at q8'
    have h2 : X.source.length ≤ X.current := q8'
    rw [q1'] at h2
    omega
  have hline' : X.line = lineAt s.source s.source.length := by
    rw [q4', hcur']
  refine ⟨X.tokens, (⟨.EOF, s.source.length, s.source.length,
    lineAt s.source s.source.length⟩ : Token),
    ?_, ?_, rfl, rfl, rfl, rfl, ?_, ?_, ?_, ?_, ?_, ?_⟩
  · simp only [scanTokens]
    rw [← hX, hcur', hline']
  · simp only [scanTokens]
    rw [← hX, hcur', hline']
  · rw [← hcur']
    exact q6'
  · simp only [scanTokens]
    rw [← hX]
    exact hcur'
  · simp only [scanTokens]
    rw [← hX]
    exact q1'
  · simp only [scanTokens]
    rw [← hX]
    exact q5
  · simp only [scanTokens]
    rw [← hX]
    exact hline'
  · simp only [scanTokens]
    rw [← hX]
    exact q7'

/-- Report accumulation across the whole scan loop: reports are only
appended, and the had-error flag is the old flag or-ed with whether any new
report was emitted.  No invariant on the starting state is assumed. -/
theorem scanLoopF_reports (fuel : Nat) (s : ScanState) :
    ∃ new, (scanLoopF fuel s).reports = s.reports ++ new ∧
      (scanLoopF fuel s).hadError = (s.hadError || !new.isEmpty) := by
  induction fuel generalizing s with
  | zero =>
    rw [scanLoopF]
    exact ⟨[], by simp, by simp⟩
  | succ fuel ih =>
    simp only [scanLoopF]
    split
    · exact ⟨[], by simp, by simp⟩
    · obtain ⟨n1, hr1, he1⟩ := scanStep_reports s
      split
      · exact ⟨n1, hr1, he1⟩
      · obtain ⟨n2, hr2, he2⟩ := ih (scanStep s).1
        refine ⟨n1 ++ n2, ?_, ?_⟩
        · rw [hr2, hr1, List.append_assoc]
        · rw [he2, he1]
          cases n1 <;> simp

theorem getD_mem_drop (src : List Nat) (a i : Nat) (h1 : a ≤ i)
    (h2 : i < src.length) : src.getD i 0 ∈ src.drop a := by
  have h3 : i - a < (src.drop a).length := by
    rw [List.length_drop]
    omega
  have h4 : (src.drop a)[i - a] = src[i] := by
    rw [List.getElem_drop]
    congr 1
    omega
  rw [List.getD_eq_getElem src 0 h2, ← h4]
  exact List.getElem_mem h3

/-- A scan started at or past the end of the buffer produces only the
end-of-input token. -/
theorem scanTokens_atEnd (s : ScanState) (h : s.source.length ≤ s.current) :
    (scanTokens s).1 =
      [{ tokenType := TokenType.EOF, spanStart := s.current,
         spanStop := s.current, line := s.line }] := by
  have h1 : isAtEnd { s with tokens := ([] : List Token) } = true := by
    rw [isAtEnd_eq_true_iff]
    exact h
  simp only [scanTokens]
  rw [scanLoopF, if_pos h1]
  simp

/-- Report accumulation across a whole `scanTokens` call: reports are only
appended, and the final had-error flag is the initial flag or-ed with
whether any new report was emitted. -/
theorem scanTokens_reports (s : ScanState) :
    ∃ new, (scanTokens s).2.reports = s.reports ++ new ∧
      (scanTokens s).2.hadError = (s.hadError || !new.isEmpty) := by
  simp only [scanTokens]
  obtain ⟨new, hr, he⟩ := scanLoopF_reports
    (({ s with tokens := ([] : List Token) } : ScanState).source.length + 1)
    { s with tokens := ([] : List Token) }
  exact ⟨new, hr, he⟩

/-- C1: for every input buffer, the token sequence returned by the scanner
is non-empty, ends with exactly one end-of-input token whose span is empty,
and every non-terminal token has a non-empty span lying inside the source
buffer; these spans are pairwise non-overlapping and appear in
left-to-right increasing order of buffer offset. -/
theorem c1_token_stream_invariant (src : List Nat) :
    (scanTokens (initScanner src)).1 ≠ [] ∧
    ∃ body eof,
      (scanTokens (initScanner src)).1 = body ++ [eof] ∧
      eof.tokenType = TokenType.EOF ∧
      eof.spanStart = eof.spanStop ∧
      (∀ t ∈ body, t.tokenType ≠ TokenType.EOF ∧
        t.spanStart < t.spanStop ∧ t.spanStop ≤ src.length) ∧
      body.Pairwise fun a b => a.spanStop ≤ b.spanStart := by
  obtain ⟨body, eof, h1, h2, h3, h4, h5, h6, h7, h8, h9, h10, h11, h12⟩ :=
    scanTokens_spec (initScanner src) (Nat.zero_le _) (lineAt_zero _).symm rfl
  have h7' : TokensOK src src.length body := h7
  have h4' : eof.spanStart = src.length := h4
  have h5' : eof.spanStop = src.length := h5
  refine ⟨by rw [h1]; simp, body, eof, h1, h3, by rw [h4', h5'], ?_, h7'.2⟩
  intro t ht
  obtain ⟨w1, w2, w3, _⟩ := h7'.1 t ht
  exact ⟨w1, w2, w3⟩

/-- C1 witness: concrete instantiation of the stream invariant. -/
theorem c1_token_stream_invariant_witness :
    (scanTokens (initScanner [40, 41])).1 ≠ [] :=
  (c1_token_stream_invariant [40, 41]).1

/-- C2 counterexample: for the input `"a\nb"`, the string token's recorded
line (1, the line of the closing quote) differs from the line on which its
lexeme began (line 0 of the opening quote), refuting the claim that every
token records the line of the first byte of its span. -/
theorem c2_start_line_counterexample :
    ¬ ∀ t ∈ (scanTokens (initScanner [34, 97, 10, 98, 34])).1,
        t.line = lineAt [34, 97, 10, 98, 34] t.spanStart := by
  decide

/-- C2 amended: every non-terminal token's recorded line number is the
0-based line number at the END of its span (the line counter value after the
last byte of the lexeme); for tokens without embedded newlines this equals
the line where the lexeme began, but a string literal with embedded newlines
records the line of its closing quote.  The end-of-input token records the
line of the end of the buffer. -/
theorem c2_line_is_line_of_span_end (src : List Nat) :
    ∃ body eof, (scanTokens (initScanner src)).1 = body ++ [eof] ∧
      (∀ t ∈ body, t.line = lineAt src t.spanStop) ∧
      eof.tokenType = TokenType.EOF ∧
      eof.line = lineAt src src.length := by
  obtain ⟨body, eof, h1, h2, h3, h4, h5, h6, h7, h8, h9, h10, h11, h12⟩ :=
    scanTokens_spec (initScanner src) (Nat.zero_le _) (lineAt_zero _).symm rfl
  have h7' : TokensOK src src.length body := h7
  have h6' : eof.line = lineAt src src.length := h6
  exact ⟨body, eof, h1, fun t ht => (h7'.1 t ht).2.2.2, h3, h6'⟩

/-- C2 amended witness: concrete instantiation on the multi-line string
input. -/
theorem c2_line_is_line_of_span_end_witness :
    ∃ body eof,
      (scanTokens (initScanner [34, 97, 10, 98, 34])).1 = body ++ [eof] ∧
      (∀ t ∈ body, t.line = lineAt [34, 97, 10, 98, 34] t.spanStop) ∧
      eof.tokenType = TokenType.EOF ∧
      eof.line = lineAt [34, 97, 10, 98, 34] 5 :=
  c2_line_is_line_of_span_end [34, 97, 10, 98, 34]

/-- C3: when the scanner consumes an opening quote that is never matched by
a closing quote in the rest of the buffer, the iteration reports an
unterminated-string error at the current line, sets the had-error flag,
produces no token, leaves the cursor at the end of the buffer, and breaks
out of the scan loop, so no further tokens are produced from the remaining
buffer. -/
theorem c3_unterminated_string_stops_scan (s : ScanState) (fuel : Nat)
    (hlt : s.current < s.source.length)
    (hq : s.source.getD s.current 0 = 34)
    (hnoq : 34 ∉ s.source.drop (s.current + 1)) :
    (scanStep s).2 = true ∧
    (scanStep s).1.tokens = s.tokens ∧
    (scanStep s).1.hadError = true ∧
    (scanStep s).1.reports =
      s.reports ++ [((scanStep s).1.line, "unterminated string")] ∧
    (scanStep s).1.current = s.source.length ∧
    scanLoopF (fuel + 1) s = (scanStep s).1 := by
  obtain ⟨sA, hsA⟩ : ∃ x, x = (advance { s with start := s.current }).2 :=
    ⟨_, rfl⟩
  have hA1 : sA.source = s.source := by
    rw [hsA]
    rfl
  have hA3 : sA.current = s.current + 1 := by
    rw [hsA]
    rfl
  have hA5 : sA.tokens = s.tokens := by
    rw [hsA]
    rfl
  have hA7 : sA.reports = s.reports := by
    rw [hsA]
    rfl
  obtain ⟨S, hS⟩ : ∃ x, x = stringLoop (sA.source.length + 1) sA := ⟨_, rfl⟩
  have hS1 : S.source = s.source := by
    rw [hS, stringLoop_source]
    exact hA1
  have hS5 : S.tokens = s.tokens := by
    rw [hS, stringLoop_tokens]
    exact hA5
  have hS7 : S.reports = s.reports := by
    rw [hS, stringLoop_reports]
    exact hA7
  have hSle : S.current ≤ s.source.length := by
    rw [hS, ← hA1]
    exact stringLoop_current_le (sA.source.length + 1) sA
      (by rw [hA3, hA1]; omega)
  have hSge : s.current + 1 ≤ S.current := by
    rw [hS]
    have h2 := stringLoop_current_ge (sA.source.length + 1) sA
    omega
  have hEnd : isAtEnd S = true := by
    by_contra hc
    have hne2 : isAtEnd S = false := Bool.eq_false_iff.mpr hc
    have hSlt : S.current < S.source.length := (isAtEnd_eq_false_iff S).1 hne2
    have hadq := stringLoop_adequate (sA.source.length + 1) sA (by omega)
    rw [← hS] at hadq
    rw [hne2] at hadq
    simp only [Bool.not_false, Bool.and_true] at hadq
    have hpk := bne_eq_false_iff_eq.mp hadq
    rw [peek_of_lt S hSlt, hS1] at hpk
    refine hnoq ?_
    rw [← hpk]
    exact getD_mem_drop s.source (s.current + 1) S.current (by omega)
      (by rw [hS1] at hSlt; exact hSlt)
  have hSc : S.current = s.source.length := by
    have h2 : S.source.length ≤ S.current := (isAtEnd_eq_true_iff S).1 hEnd
    have h3 : S.source.length = s.source.length := by rw [hS1]
    omega
  have hres : scanStep s = (laxError S S.line "unterminated string", true) := by
    rw [scanStep_eq_quote s hq]
    simp only [← hsA]
    simp only [← hS]
    rw [if_pos hEnd]
  refine ⟨by rw [hres], ?_, by rw [hres]; rfl, ?_, ?_, ?_⟩
  · rw [hres]
    simp only [laxError_tokens]
    exact hS5
  · rw [hres]
    simp only [laxError_reports, laxError_line]
    rw [hS7]
  · rw [hres]
    simp only [laxError_current]
    exact hSc
  · simp only [scanLoopF]
    have hne : isAtEnd s = false := (isAtEnd_eq_false_iff s).2 hlt
    rw [hne, if_neg Bool.false_ne_true, hres, if_pos rfl]

/-- C3 witness: the unterminated input `"a` exercises every hypothesis. -/
theorem c3_unterminated_string_stops_scan_witness :
    (scanStep (initScanner [34, 97])).2 = true ∧
    (scanStep (initScanner [34, 97])).1.tokens =
      (initScanner [34, 97]).tokens ∧
    (scanStep (initScanner [34, 97])).1.hadError = true ∧
    (scanStep (initScanner [34, 97])).1.reports =
      (initScanner [34, 97]).reports ++
        [((scanStep (initScanner [34, 97])).1.line, "unterminated string")] ∧
    (scanStep (initScanner [34, 97])).1.current =
      (initScanner [34, 97]).source.length ∧
    scanLoopF (0 + 1) (initScanner [34, 97]) =
      (scanStep (initScanner [34, 97])).1 :=
  c3_unterminated_string_stops_scan (initScanner [34, 97]) 0 (by decide)
    (by decide) (by decide)

/-- C4: the scanner never reads past the buffer's end: `peek` and
`peekNext` return the sentinel byte 0 instead of reading out of bounds, a
whole scan from a fresh scanner never performs an out-of-bounds read (the
ghost `oob` flag stays false) and ends with the cursor inside the buffer,
and every loop iteration started in bounds keeps
`start ≤ current ≤ length` and performs no out-of-bounds read. -/
theorem c4_never_reads_past_end :
    (∀ s : ScanState, isAtEnd s = true → peek s = 0) ∧
    (∀ s : ScanState, s.source.length ≤ s.current + 1 → peekNext s = 0) ∧
    (∀ src : List Nat, (scanTokens (initScanner src)).2.oob = false ∧
      (scanTokens (initScanner src)).2.current ≤ src.length) ∧
    (∀ s : ScanState, isAtEnd s = false →
      s.line = lineAt s.source s.current → s.oob = false →
      TokensOK s.source s.current s.tokens →
      (scanStep s).1.start ≤ (scanStep s).1.current ∧
      (scanStep s).1.current ≤ s.source.length ∧
      (scanStep s).1.oob = false) := by
  refine ⟨peek_sentinel, peekNext_sentinel, fun src => ⟨?_, ?_⟩,
    fun s h1 h2 h3 h4 => ?_⟩
  · obtain ⟨_, _, _, _, _, _, _, _, _, _, _, h10, _, _⟩ :=
      scanTokens_spec (initScanner src) (Nat.zero_le _) (lineAt_zero _).symm
        rfl
    exact h10
  · obtain ⟨_, _, _, _, _, _, _, _, _, h8, _, _, _, _⟩ :=
      scanTokens_spec (initScanner src) (Nat.zero_le _) (lineAt_zero _).symm
        rfl
    have h8' : (scanTokens (initScanner src)).2.current = src.length := h8
    omega
  · obtain ⟨p1, p2, p3, p4, p5, p6, p7, p8, p9⟩ := scanStep_main s h1 h2 h3 h4
    exact ⟨p2, p3, p6⟩

/-- C4 witness: the step invariant instantiated on a concrete one-byte
buffer. -/
theorem c4_never_reads_past_end_witness :
    (scanStep (initScanner [42])).1.start ≤
      (scanStep (initScanner [42])).1.current ∧
    (scanStep (initScanner [42])).1.current ≤
      (initScanner [42]).source.length ∧
    (scanStep (initScanner [42])).1.oob = false :=
  c4_never_reads_past_end.2.2.2 (initScanner [42]) (by decide) (by decide)
    rfl ⟨fun t ht => absurd ht (List.not_mem_nil t), List.Pairwise.nil⟩

/-- C5: every lexical error is reported through the installed sink and sets
the sticky had-error flag: across any number of loop iterations the report
list only grows and the flag equals the old flag or-ed with whether a new
report was emitted (so the flag is never cleared once set), the final flag
of a fresh scan is set exactly when some report was emitted, and the token
sequence is still fully returned ending in the end-of-input marker. -/
theorem c5_errors_reported_and_sticky :
    (∀ (s : ScanState) (fuel : Nat),
      ∃ new, (scanLoopF fuel s).reports = s.reports ++ new ∧
        (scanLoopF fuel s).hadError = (s.hadError || !new.isEmpty)) ∧
    (∀ src : List Nat,
      (scanTokens (initScanner src)).2.hadError =
        !(scanTokens (initScanner src)).2.reports.isEmpty ∧
      ∃ body eof, (scanTokens (initScanner src)).1 = body ++ [eof] ∧
        eof.tokenType = TokenType.EOF) := by
  refine ⟨fun s fuel => scanLoopF_reports fuel s, fun src => ⟨?_, ?_⟩⟩
  · obtain ⟨new, hr, he⟩ := scanTokens_reports (initScanner src)
    have hr' : (scanTokens (initScanner src)).2.reports = new := hr
    have he' : (scanTokens (initScanner src)).2.hadError = !new.isEmpty := he
    rw [hr', he']
  · obtain ⟨body, eof, h1, _, h3, _⟩ :=
      scanTokens_spec (initScanner src) (Nat.zero_le _) (lineAt_zero _).symm
        rfl
    exact ⟨body, eof, h1, h3⟩

/-- C6: a `.` in a numeric literal is consumed only when immediately
followed by a digit: `123.45` scans to a single number token with value
123.45 (the exact decimal value of the decoded double), while `123.` scans
to a number token 123 followed by a separate dot token, the trailing `.`
never being absorbed into the number's span. -/
theorem c6_number_dot_lookahead :
    (scanTokens (initScanner [49, 50, 51, 46, 52, 53])).1 =
      [{ tokenType := .num (mkRat 2469 20), spanStart := 0, spanStop := 6,
         line := 0 },
       { tokenType := .EOF, spanStart := 6, spanStop := 6, line := 0 }] ∧
    (scanTokens (initScanner [49, 50, 51, 46])).1 =
      [{ tokenType := .num (mkRat 123 1), spanStart := 0, spanStop := 3,
         line := 0 },
       { tokenType := .dot, spanStart := 3, spanStop := 4, line := 0 },
       { tokenType := .EOF, spanStart := 4, spanStop := 4, line := 0 }] := by
  decide

/-- C7: keyword lookup is exact-match only over the 16-entry table: every
byte string other than the 16 keywords is classified as a generic
identifier, each keyword maps to its dedicated category, and `for forest`
scans to the For keyword followed by a generic identifier (maximal munch
prevents a partial keyword match). -/
theorem c7_keyword_lookup_exact_match :
    (∀ bs : List Nat, bs ∉ ([[97, 110, 100], [99, 108, 97, 115, 115],
      [101, 108, 115, 101], [102, 97, 108, 115, 101], [102, 117, 110],
      [102, 111, 114], [105, 102], [110, 105, 108], [111, 114],
      [112, 114, 105, 110, 116], [114, 101, 116, 117, 114, 110],
      [115, 117, 112, 101, 114], [116, 104, 105, 115], [116, 114, 117, 101],
      [118, 97, 114], [119, 104, 105, 108, 101]] : List (List Nat)) →
      keywordOrIdentifier bs = TokenType.identifier) ∧
    (keywordOrIdentifier [97, 110, 100] = TokenType.kAnd ∧
     keywordOrIdentifier [99, 108, 97, 115, 115] = TokenType.kClass ∧
     keywordOrIdentifier [101, 108, 115, 101] = TokenType.kElse ∧
     keywordOrIdentifier [102, 97, 108, 115, 101] = TokenType.kFalse ∧
     keywordOrIdentifier [102, 117, 110] = TokenType.kFun ∧
     keywordOrIdentifier [102, 111, 114] = TokenType.kFor ∧
     keywordOrIdentifier [105, 102] = TokenType.kIf ∧
     keywordOrIdentifier [110, 105, 108] = TokenType.kNil ∧
     keywordOrIdentifier [111, 114] = TokenType.kOr ∧
     keywordOrIdentifier [112, 114, 105, 110, 116] = TokenType.kPrint ∧
     keywordOrIdentifier [114, 101, 116, 117, 114, 110] = TokenType.kReturn ∧
     keywordOrIdentifier [115, 117, 112, 101, 114] = TokenType.kSuper ∧
     keywordOrIdentifier [116, 104, 105, 115] = TokenType.kThis ∧
     keywordOrIdentifier [116, 114, 117, 101] = TokenType.kTrue ∧
     keywordOrIdentifier [118, 97, 114] = TokenType.kVar ∧
     keywordOrIdentifier [119, 104, 105, 108, 101] = TokenType.kWhile) ∧
    (scanTokens
        (initScanner [102, 111, 114, 32, 102, 111, 114, 101, 115, 116])).1 =
      [{ tokenType := .kFor, spanStart := 0, spanStop := 3, line := 0 },
       { tokenType := .identifier, spanStart := 4, spanStop := 10,
         line := 0 },
       { tokenType := .EOF, spanStart := 10, spanStop := 10, line := 0 }] := by
  refine ⟨?_, by decide⟩
  intro bs h
  simp only [List.mem_cons, List.not_mem_nil, or_false, not_or] at h
  obtain ⟨n1, n2, n3, n4, n5, n6, n7, n8, n9, n10, n11, n12, n13, n14, n15,
    n16⟩ := h
  unfold keywordOrIdentifier
  rw [if_neg n1, if_neg n2, if_neg n3, if_neg n4, if_neg n5, if_neg n6,
    if_neg n7, if_neg n8, if_neg n9, if_neg n10, if_neg n11, if_neg n12,
    if_neg n13, if_neg n14, if_neg n15, if_neg n16]

/-- C7 witness: `forest` is not a keyword and maps to a generic
identifier. -/
theorem c7_keyword_lookup_exact_match_witness :
    keywordOrIdentifier [102, 111, 114, 101, 115, 116] =
      TokenType.identifier :=
  c7_keyword_lookup_exact_match.1 [102, 111, 114, 101, 115, 116] (by decide)

/-- C8: for the bytes `!`, `=`, `<`, `>` the scanner uses one-byte
lookahead: `check_next` consumes the next byte exactly when it is in bounds
and equals the expected byte, and each of the eight operator inputs scans
to its dedicated category, including when the operator byte is the last
byte of the buffer. -/
theorem c8_operator_lookahead :
    (∀ (s : ScanState) (e : Nat),
      (checkNext s e).1 = true ↔
        s.current < s.source.length ∧ s.source.getD s.current 0 = e) ∧
    (scanTokens (initScanner [33, 61])).1 =
      [{ tokenType := .bangEqual, spanStart := 0, spanStop := 2, line := 0 },
       { tokenType := .EOF, spanStart := 2, spanStop := 2, line := 0 }] ∧
    (scanTokens (initScanner [33])).1 =
      [{ tokenType := .bang, spanStart := 0, spanStop := 1, line := 0 },
       { tokenType := .EOF, spanStart := 1, spanStop := 1, line := 0 }] ∧
    (scanTokens (initScanner [61, 61])).1 =
      [{ tokenType := .equalEqual, spanStart := 0, spanStop := 2, line := 0 },
       { tokenType := .EOF, spanStart := 2, spanStop := 2, line := 0 }] ∧
    (scanTokens (initScanner [61])).1 =
      [{ tokenType := .equal, spanStart := 0, spanStop := 1, line := 0 },
       { tokenType := .EOF, spanStart := 1, spanStop := 1, line := 0 }] ∧
    (scanTokens (initScanner [60, 61])).1 =
      [{ tokenType := .lessEqual, spanStart := 0, spanStop := 2, line := 0 },
       { tokenType := .EOF, spanStart := 2, spanStop := 2, line := 0 }] ∧
    (scanTokens (initScanner [60])).1 =
      [{ tokenType := .less, spanStart := 0, spanStop := 1, line := 0 },
       { tokenType := .EOF, spanStart := 1, spanStop := 1, line := 0 }] ∧
    (scanTokens (initScanner [62, 61])).1 =
      [{ tokenType := .greaterEqual, spanStart := 0, spanStop := 2,
         line := 0 },
       { tokenType := .EOF, spanStart := 2, spanStop := 2, line := 0 }] ∧
    (scanTokens (initScanner [62])).1 =
      [{ tokenType := .greater, spanStart := 0, spanStop := 1, line := 0 },
       { tokenType := .EOF, spanStart := 1, spanStop := 1, line := 0 }] := by
  refine ⟨?_, by decide⟩
  intro s e
  rw [checkNext_eq]
  split
  · rename_i hc
    exact ⟨fun _ => hc, fun _ => rfl⟩
  · rename_i hc
    exact ⟨fun h2 => absurd h2 Bool.false_ne_true, fun h2 => absurd h2 hc⟩

/-- C8 witness: `check_next` fires on a buffer whose current byte is `=`. -/
theorem c8_operator_lookahead_witness :
    (checkNext (initScanner [61]) 61).1 = true :=
  (c8_operator_lookahead.1 (initScanner [61]) 61).mpr (by decide)

/-- C9: every span the scanner passes to the numeric decoder is a non-empty
digit run optionally followed by `.` and a further non-empty digit run, so
the decode-failure branch is unreachable: for every input buffer, the
scanner never reports a malformed-number ("could not parse number")
error. -/
theorem c9_no_malformed_number_report (src : List Nat) :
    (scanTokens (initScanner src)).2.reports.all
      (fun p => p.2 != "could not parse number") = true := by
  obtain ⟨_, _, _, _, _, _, _, _, _, _, _, _, _, h12⟩ :=
    scanTokens_spec (initScanner src) (Nat.zero_le _) (lineAt_zero _).symm rfl
  rw [List.all_eq_true]
  intro p hp
  rcases h12 p hp with hmem | hne
  · have hmem' : p ∈ ([] : List (Nat × String)) := hmem
    exact absurd hmem' (List.not_mem_nil p)
  · exact bne_iff_ne.2 hne

/-- C10: calling `scan_tokens` a second time on the same scanner returns a
sequence containing only the end-of-input token: the accumulator is cleared
at the start of the call, while the cursor (already at the buffer's end)
and the line counter keep their values from the first scan. -/
theorem c10_second_scan_yields_only_eof (src : List Nat) :
    (scanTokens (scanTokens (initScanner src)).2).1 =
      [{ tokenType := TokenType.EOF, spanStart := src.length,
         spanStop := src.length, line := lineAt src src.length }] := by
  obtain ⟨body, eof, h1, h2, h3, h4, h5, h6, h7, h8, h9, h10, h11, h12⟩ :=
    scanTokens_spec (initScanner src) (Nat.zero_le _) (lineAt_zero _).symm rfl
  have h8' : (scanTokens (initScanner src)).2.current = src.length := h8
  have h9' : (scanTokens (initScanner src)).2.source = src := h9
  have h11' : (scanTokens (initScanner src)).2.line =
      lineAt src src.length := h11
  rw [scanTokens_atEnd ((scanTokens (initScanner src)).2)
    (by rw [h9', h8'])]
  rw [h8', h11']

end Lax
